import Mathlib

/-!
Shallow embedding of the eCFR Analyzer core (`src/app.py`) and verification
of its specification claims.

Modelling conventions:
* Python floats are modelled as exact rationals (`ℚ`); Python ints as `Nat`/`Int`.
* Python dicts are modelled as insertion-ordered association lists; Python
  `defaultdict` reads are modelled by a lookup with a default.
* The network (`requests.get`) is modelled by an oracle function giving the
  outcome of each attempt for each `(title, date)` pair; `st.session_state`
  is modelled by explicit state threading.
* `BeautifulSoup(…, "lxml-xml").get_text()` is an external library call; it is
  modelled by an abstract extraction oracle `parse : String → Option String`
  (`none` = the library raised, triggering the fallback path of
  `count_words_in_xml`).
-/

/-! ### Small Python-semantics helpers -/

/-- Rendering of a Python `bool` inside an f-string (`f"{flag}"`). -/
def pyBool (b : Bool) : String := if b then "True" else "False"

/-- Comparison of two characters by code point. -/
def charLt (a b : Char) : Bool := a.toNat < b.toNat

/-- Lexicographic comparison of character lists. -/
def charListLt : List Char → List Char → Bool
  | [], [] => false
  | [], _ :: _ => true
  | _ :: _, [] => false
  | a :: as, b :: bs =>
    if charLt a b then true else if charLt b a then false else charListLt as bs

/-- The comparison `datetime.strptime(a, "%Y-%m-%d") < datetime.strptime(b, "%Y-%m-%d")`
used in `app.py` (lines 276, 427, 1103). On zero-padded ISO-8601 date strings the
chronological order of the parsed dates coincides with lexicographic string order,
which is what we compute here. -/
def dateLt (a b : String) : Bool := charListLt a.data b.data

/-- Python `s.replace(" ", "_")` for a one-character pattern: replace every space. -/
def underscoreSpaces (s : String) : String :=
  ⟨s.data.map (fun c => if c = ' ' then '_' else c)⟩

/-! ### Word counter (`count_words_in_xml`, app.py lines 138-158) -/

/-- A word character in the sense of the regex `\w` (ASCII range; the inputs the
claims evaluate are ASCII). -/
def isWordChar (c : Char) : Bool := c.isAlphanum || c = '_'

/-- Count maximal runs of word characters; the boolean tracks whether the previous
character was a word character. `len(re.findall(r"\b\w+\b", text))` counts exactly
the maximal `\w`-runs of `text`. -/
def countRunsAux : List Char → Bool → Nat
  | [], _ => 0
  | c :: cs, inWord =>
    if isWordChar c then (if inWord then 0 else 1) + countRunsAux cs true
    else countRunsAux cs false

/-- Number of words of a text: `len(re.findall(r"\b\w+\b", text))`. -/
def countWordRuns (s : String) : Nat := countRunsAux s.data false

/-- Scan for the first `'>'`; return the remainder after it. Used to locate the
end of a regex match of `<[^>]+>` (greedy `[^>]+` cannot cross a `'>'`, so the
match always ends at the first `'>'` after the opening `'<'`). -/
def goFindGt : List Char → Option (List Char)
  | [] => none
  | c :: cs => if c = '>' then some cs else goFindGt cs

/-- Given the characters after an opening `'<'`, return the remainder after the
matched `<[^>]+>` tag, or `none` when no match starts at this `'<'` (either the
very next character is `'>'`, so `[^>]+` cannot match, or no `'>'` follows). -/
def findTagEnd : List Char → Option (List Char)
  | [] => none
  | c :: cs => if c = '>' then none else goFindGt cs

/-- One fuel unit is spent per character consumed, so `fuel = length` always
suffices; the fuel-exhausted branch is unreachable. Implements
`re.sub(r"<[^>]+>", " ", ·)`: leftmost non-overlapping matches of `<[^>]+>`
are each replaced by a single space. -/
def stripTagsFuel : Nat → List Char → List Char
  | 0, l => l
  | fuel + 1, l =>
    match l with
    | [] => []
    | c :: rest =>
      if c = '<' then
        match findTagEnd rest with
        | some rem => ' ' :: stripTagsFuel fuel rem
        | none => '<' :: stripTagsFuel fuel rest
      else c :: stripTagsFuel fuel rest

/-- The fallback transform of `count_words_in_xml`:
`re.sub(r"<[^>]+>", " ", xml_content)`. -/
def stripTags (s : String) : String := ⟨stripTagsFuel s.data.length s.data⟩

/-- Embedding of `count_words_in_xml` (app.py lines 138-158). `parse` is the
abstract model of `BeautifulSoup(xml_content, "lxml-xml").get_text()`:
`some text` means the library returned `text`, `none` means it raised, in which
case the code falls back to tag-stripping plus the same word-run count.
`if not xml_content: return 0` covers both `None` and the empty string. -/
def count_words_in_xml (parse : String → Option String) (xml_content : Option String) : Nat :=
  match xml_content with
  | none => 0
  | some s =>
    if s = "" then 0
    else
      match parse s with
      | some text => countWordRuns text
      | none => countWordRuns (stripTags s)

/-! ### Retrieval layer (`get_title_content`, app.py lines 87-136) -/

/-- Outcome of one `requests.get` attempt for a title-content URL. -/
inductive FetchOutcome where
  | success (body : String)
  | status (code : Nat)
  | timeout
  | error
deriving DecidableEq

/-- Network oracle: outcome of attempt `k` (0-based) for `(title_number, date)`.
A function models the "single fixed immutable upstream snapshot" of the spec. -/
def Oracle : Type := Nat → String → Nat → FetchOutcome

/-- The per-title content cache (`st.session_state` entries with keys
`f"title_content_{title_number}_{date}"`). Distinct `(title_number, date)` pairs
yield distinct key strings (the decimal digits of `title_number` contain no
underscore), so the cache is modelled as keyed by the pair itself. -/
def ContentCache : Type := Nat × String → Option String

/-- Result of a `get_title_content` call: the returned value, the session cache
after the call, and the number of network requests issued during the call. -/
structure GTCResult where
  result : Option String
  cache : ContentCache
  requests : Nat

/-- The configured skip-list checked at app.py line 96. -/
def problematicTitles : List Nat := [7, 10, 40, 42, 45]

/-- The retry loop of `get_title_content` (app.py lines 102-136). `made` counts
requests already issued; `fuel` is the number of attempts still allowed
(`max_retries + 1` initially; the Python loop `while retries <= max_retries`
performs one attempt per remaining unit). The `fuel = 0` base case is
unreachable because every recursive call keeps `fuel ≥ 1`. -/
def fetchLoop (cacheOn : Bool) (oracle : Oracle) (n : Nat) (d : String)
    (cache : ContentCache) (made : Nat) : Nat → GTCResult
  | 0 => ⟨none, cache, made⟩
  | fuel + 1 =>
    match oracle n d made with
    | .success body =>
      ⟨some body,
       if cacheOn then fun k => if k = (n, d) then some body else cache k else cache,
       made + 1⟩
    | .status code =>
      if code = 504 then
        if fuel = 0 then ⟨none, cache, made + 1⟩
        else fetchLoop cacheOn oracle n d cache (made + 1) fuel
      else if code = 404 then ⟨none, cache, made + 1⟩
      else ⟨none, cache, made + 1⟩
    | .timeout =>
      if fuel = 0 then ⟨none, cache, made + 1⟩
      else fetchLoop cacheOn oracle n d cache (made + 1) fuel
    | .error => ⟨none, cache, made + 1⟩

/-- Embedding of `get_title_content(title_number, date, max_retries=1,
force_refresh=False)` (app.py lines 87-136). `skip` is the global
`skip_problematic_titles`, `cacheOn` the global `cache_results`. The cache
lookup (lines 92-93) precedes the skip-list check (lines 96-98), which precedes
the network loop. -/
def get_title_content (skip cacheOn : Bool) (oracle : Oracle) (cache : ContentCache)
    (title_number : Nat) (date : String) (max_retries : Nat) (force_refresh : Bool) :
    GTCResult :=
  if !force_refresh && cacheOn && (cache (title_number, date)).isSome then
    ⟨cache (title_number, date), cache, 0⟩
  else if skip && problematicTitles.contains title_number then
    ⟨none, cache, 0⟩
  else
    fetchLoop cacheOn oracle title_number date cache 0 (max_retries + 1)

/-- The result a cache-less fetch produces: `get_title_content` run with caching
disabled and the cache bypassed. Every call site of `get_title_content` in
`app.py` uses the default `max_retries = 1`. -/
def fetchPure (skip : Bool) (oracle : Oracle) (n : Nat) (d : String) (max_retries : Nat) :
    Option String :=
  (get_title_content skip false oracle (fun _ => none) n d max_retries true).result

/-! ### Data model: agencies and titles -/

/-- One element of an agency's `cfr_references` list: a JSON object that may or
may not carry a `"title"` field (`if "title" in ref`, app.py line 170). -/
structure CFRRef where
  title? : Option Nat
deriving DecidableEq

/-- An agency record: `name`, `slug`, `cfr_references`, `children`. An absent
`"cfr_references"` / `"children"` key behaves exactly like the empty list in
every loop of `app.py`, so both are modelled as plain lists. -/
inductive Agency where
  | mk (name : String) (slug : String) (cfr_references : List CFRRef) (children : List Agency)

/-- Display name of an agency. -/
def Agency.name : Agency → String
  | .mk n _ _ _ => n

/-- Stable identifier of an agency. -/
def Agency.slug : Agency → String
  | .mk _ s _ _ => s

/-- Direct title references of an agency. -/
def Agency.cfr_references : Agency → List CFRRef
  | .mk _ _ r _ => r

/-- Child agencies. -/
def Agency.children : Agency → List Agency
  | .mk _ _ _ c => c

/-- One record of the titles catalog (`titles.json`). -/
structure TitleInfo where
  number : Nat
  name : String
  latest_amended_on : String
  reserved : Bool
deriving DecidableEq

/-! ### Ownership index (`create_agency_title_mapping`, app.py lines 160-182) -/

/-- Python `set.add` on a set modelled as a dedup list in insertion order. -/
def setAdd (s : List Nat) (t : Nat) : List Nat := if t ∈ s then s else s ++ [t]

/-- `agency_to_titles[n].add(t)` on a `defaultdict(set)` modelled as an
insertion-ordered association list: update in place if the key exists,
append a fresh singleton otherwise. -/
def dictAddTitle : List (String × List Nat) → String → Nat → List (String × List Nat)
  | [], n, t => [(n, [t])]
  | (k, s) :: rest, n, t =>
    if k = n then (k, setAdd s t) :: rest else (k, s) :: dictAddTitle rest n t

/-- The inner loop `for ref in …: if "title" in ref: m[n].add(ref["title"])`. -/
def addRefs (m : List (String × List Nat)) (n : String) (refs : List CFRRef) :
    List (String × List Nat) :=
  refs.foldl
    (fun m r => match r.title? with | some t => dictAddTitle m n t | none => m) m

/-- Embedding of `create_agency_title_mapping` (app.py lines 160-182): for each
agency in the input list, record its own `cfr_references` under its own name,
then the `cfr_references` of each of its direct children under the child's
name. No deeper level is visited. -/
def create_agency_title_mapping (agencies : List Agency) : List (String × List Nat) :=
  agencies.foldl
    (fun m a =>
      let m := addRefs m a.name a.cfr_references
      a.children.foldl (fun m c => addRefs m c.name c.cfr_references) m)
    []

/-- Read of `agency_to_titles` at a name, with the `defaultdict(set)` default. -/
def lookupTitles : List (String × List Nat) → String → List Nat
  | [], _ => []
  | (k, s) :: rest, n => if k = n then s else lookupTitles rest n

/-- `title_to_agencies[t].append(a)` on a `defaultdict(list)`. -/
def dictAddAgency : List (Nat × List String) → Nat → String → List (Nat × List String)
  | [], t, a => [(t, [a])]
  | (k, s) :: rest, t, a =>
    if k = t then (k, s ++ [a]) :: rest else (k, s) :: dictAddAgency rest t a

/-- The inverse-map construction (app.py lines 240-243 and 386-389):
`for agency, titles in agency_to_titles.items(): for title in titles:
title_to_agencies[title].append(agency)`. -/
def invertMapping (m : List (String × List Nat)) : List (Nat × List String) :=
  m.foldl (fun acc p => p.2.foldl (fun acc t => dictAddAgency acc t p.1) acc) []

/-- Read of `title_to_agencies.get(title, [])`. -/
def lookupAgencies : List (Nat × List String) → Nat → List String
  | [], _ => []
  | (k, s) :: rest, t => if k = t then s else lookupAgencies rest t

/-! ### Attribution engine (app.py lines 449-457, identically 289-297) -/

/-- `agency_word_counts[a] += v` on a `defaultdict(int)` modelled as an
insertion-ordered association list (missing key reads as 0, a fresh key is
appended at the end, as a Python dict does). -/
def addToAgency : List (String × ℚ) → String → ℚ → List (String × ℚ)
  | [], a, v => [(a, v)]
  | (k, w) :: rest, a, v =>
    if k = a then (k, w + v) :: rest else (k, w) :: addToAgency rest a v

/-- The inner loop `for agency in agencies_for_title: agency_word_counts[agency] += v`. -/
def attributeOwners (m : List (String × ℚ)) (owners : List String) (v : ℚ) :
    List (String × ℚ) :=
  owners.foldl (fun m a => addToAgency m a v) m

/-- Processing of one `(title, word_count)` pair: look up the owners, skip the
title if it has none, otherwise add `word_count / len(owners)` to each owner. -/
def attributeStep (tta : Nat → List String) (m : List (String × ℚ)) (p : Nat × Nat) :
    List (String × ℚ) :=
  let owners := tta p.1
  if owners = [] then m
  else attributeOwners m owners ((p.2 : ℚ) / (owners.length : ℚ))

/-- The shared attribution loop of app.py lines 449-457 (snapshot) and 289-297
(time series, one year): fold `attributeStep` over the word-count dict. (The
spec calls this operation `attribute`; that word is reserved in Lean, hence the
longer name.) -/
def attributeTitles (twc : List (Nat × Nat)) (tta : Nat → List String) : List (String × ℚ) :=
  twc.foldl (attributeStep tta) []

/-- Value read of the accumulated `defaultdict(int)` (missing key = 0). -/
def lookupQ : List (String × ℚ) → String → ℚ
  | [], _ => 0
  | (k, w) :: rest, a => if k = a then w else lookupQ rest a

/-- Sum of all per-agency totals. -/
def sumValues (m : List (String × ℚ)) : ℚ := (m.map Prod.snd).sum

/-! ### Per-title processing loops (snapshot, time series, composition) -/

/-- Date selection shared by all three loops: `use_date = target_date` unless
`latest_amended_on` parses to an earlier date. -/
def useDate (ti : TitleInfo) (target : String) : String :=
  if dateLt ti.latest_amended_on target then ti.latest_amended_on else target

/-- `title_word_counts[k] = v` on a Python dict: overwrite in place if the key
exists, append otherwise. -/
def dictInsert : List (Nat × Nat) → Nat → Nat → List (Nat × Nat)
  | [], k, v => [(k, v)]
  | (k0, v0) :: rest, k, v =>
    if k0 = k then (k0, v) :: rest else (k0, v0) :: dictInsert rest k v

/-- State threaded through a snapshot/time-series title loop: the
`title_word_counts` dict, the content cache, and a log with one entry per
network request actually issued (used to state "no fetch occurs" claims). -/
structure SnapState where
  twc : List (Nat × Nat)
  cache : ContentCache
  fetchLog : List (Nat × String)

/-- One iteration of the snapshot loop (app.py lines 410-447) and of the
time-series loop (lines 261-287); the two differ only in the `force_refresh`
argument passed to `get_title_content` (`not cache_results` at line 432,
the default `False` at line 280), so it is a parameter here. Reserved titles
are skipped before anything else; a returned content is counted and recorded
only when it is truthy (not `None`, not `""`). -/
def loopStep (skip cacheOn : Bool) (oracle : Oracle) (parse : String → Option String)
    (target : String) (forceRefresh : Bool) (s : SnapState) (ti : TitleInfo) : SnapState :=
  if ti.reserved then s
  else
    let d := useDate ti target
    let r := get_title_content skip cacheOn oracle s.cache ti.number d 1 forceRefresh
    let log := s.fetchLog ++ List.replicate r.requests (ti.number, d)
    match r.result with
    | some content =>
      if content = "" then { s with cache := r.cache, fetchLog := log }
      else
        { twc := dictInsert s.twc ti.number (count_words_in_xml parse (some content)),
          cache := r.cache, fetchLog := log }
    | none => { s with cache := r.cache, fetchLog := log }

/-- The snapshot title loop (app.py lines 398-447): fold `loopStep` with
`force_refresh = not cache_results` over `titles_info[:min(max_titles, len(titles_info))]`
(the slice is applied by the caller). -/
def snapshotTitles (skip cacheOn : Bool) (oracle : Oracle) (parse : String → Option String)
    (target : String) (titles : List TitleInfo) (cache : ContentCache) : SnapState :=
  titles.foldl (loopStep skip cacheOn oracle parse target (!cacheOn)) ⟨[], cache, []⟩

/-- Embedding of `calculate_word_counts_over_time` (app.py lines 234-304):
build the ownership index once, then for each year run the per-title loop with
target `f"{year}-01-01"` (and `get_title_content`'s default `force_refresh=False`)
and attribute the counts. Returns `word_counts_by_year` together with the
content cache left behind. -/
def calculate_word_counts_over_time (skip cacheOn : Bool) (oracle : Oracle)
    (parse : String → Option String) (agencies : List Agency)
    (titles_info : List TitleInfo) (years : List Nat) (max_titles : Nat)
    (cache : ContentCache) : List (Nat × List (String × ℚ)) × ContentCache :=
  let t2a := invertMapping (create_agency_title_mapping agencies)
  years.foldl
    (fun acc year =>
      let target := toString year ++ "-01-01"
      let st := (titles_info.take max_titles).foldl
        (loopStep skip cacheOn oracle parse target false) ⟨[], acc.2, []⟩
      (acc.1 ++ [(year, attributeTitles st.twc (fun t => lookupAgencies t2a t))], st.cache))
    ([], cache)

/-- State of the composition title loop: additionally the `title_fetch_errors`
dict. -/
structure CompState where
  twc : List (Nat × Nat)
  errs : List (Nat × String)
  cache : ContentCache
  fetchLog : List (Nat × String)

/-- `title_fetch_errors[k] = msg` (Python dict assignment). -/
def dictInsertErr : List (Nat × String) → Nat → String → List (Nat × String)
  | [], k, v => [(k, v)]
  | (k0, v0) :: rest, k, v =>
    if k0 = k then (k0, v) :: rest else (k0, v0) :: dictInsertErr rest k v

/-- One iteration of the composition loop (app.py lines 1087-1119): reserved
titles are skipped first; a truthy content is counted into `title_word_counts`,
otherwise `"No content received"` is recorded in `title_fetch_errors`. The
`except` clause at line 1115 is unreachable in this model (no modelled
operation raises). `force_refresh = not cache_results` as at line 1108. -/
def compositionStep (skip cacheOn : Bool) (oracle : Oracle) (parse : String → Option String)
    (target : String) (s : CompState) (ti : TitleInfo) : CompState :=
  if ti.reserved then s
  else
    let d := useDate ti target
    let r := get_title_content skip cacheOn oracle s.cache ti.number d 1 (!cacheOn)
    let log := s.fetchLog ++ List.replicate r.requests (ti.number, d)
    match r.result with
    | some content =>
      if content = "" then
        { s with errs := dictInsertErr s.errs ti.number "No content received",
                 cache := r.cache, fetchLog := log }
      else
        { s with twc := dictInsert s.twc ti.number (count_words_in_xml parse (some content)),
                 cache := r.cache, fetchLog := log }
    | none =>
      { s with errs := dictInsertErr s.errs ti.number "No content received",
               cache := r.cache, fetchLog := log }

/-! ### Composition title selection (app.py lines 1073-1085) -/

/-- Python `str(t["number"]) in titles_for_agency` where `titles_for_agency` is
a set of integers: equality between a `str` and an `int` is always `False` in
Python, so the membership test never succeeds, whatever the values are. -/
def pyStrEqNat (_s : String) (_n : Nat) : Bool := false

/-- Embedding of the three-stage selection of `relevant_titles`
(app.py lines 1072-1085). `owned` is `titles_for_agency` (a set of title
numbers, carried in its iteration order). Stage 1 filters with
`str(t["number"]) in titles_for_agency` (always empty, see `pyStrEqNat`);
stage 2, entered when stage 1 found nothing, matches `str(t["number"]) ==
str(title_num)` per owned number, keeping the first catalog entry per number;
stage 3 falls back to `titles_info[:10]` when still empty. -/
def relevant_titles (titles_info : List TitleInfo) (owned : List Nat) : List TitleInfo :=
  let r0 := titles_info.filter (fun t => owned.any (fun n => pyStrEqNat (toString t.number) n))
  let r1 :=
    if r0.isEmpty then
      owned.filterMap (fun n => titles_info.find? (fun t => toString t.number == toString n))
    else r0
  if r1.isEmpty then titles_info.take 10 else r1

/-! ### Composition table (app.py lines 1125-1147) -/

/-- One row of the composition DataFrame. -/
structure CompRow where
  titleNumber : Nat
  title : String
  wordCount : Nat
  percentage : ℚ
deriving DecidableEq

/-- Python `round(x, 2)` idealized over exact rationals: round to the nearest
multiple of 1/100, ties to the even multiple (banker's rounding). -/
def roundHalfEven (q : ℚ) : ℤ :=
  if q - ⌊q⌋ < 1 / 2 then ⌊q⌋
  else if 1 / 2 < q - ⌊q⌋ then ⌊q⌋ + 1
  else if ⌊q⌋ % 2 = 0 then ⌊q⌋ else ⌊q⌋ + 1

/-- `round(percentage, 2)` (app.py line 1142). -/
def round2 (q : ℚ) : ℚ := (roundHalfEven (q * 100) : ℚ) / 100

/-- `total_words = sum(title_word_counts.values()) if title_word_counts else 0`
(app.py line 1127); both branches give 0 on an empty dict. -/
def compositionTotal (twc : List (Nat × Nat)) : Nat := (twc.map Prod.snd).sum

/-- One entry of `composition_data` (app.py lines 1131-1143). -/
def compRowOf (titles_info : List TitleInfo) (total : Nat) (p : Nat × Nat) : CompRow :=
  let tname := ((titles_info.find? (fun t => t.number == p.1)).map TitleInfo.name).getD
    ("Title " ++ toString p.1)
  let percentage : ℚ := if 0 < total then ((p.2 : ℚ) / (total : ℚ)) * 100 else 0
  ⟨p.1, "Title " ++ toString p.1 ++ ": " ++ tname, p.2, round2 percentage⟩

/-- `composition_data` before sorting. -/
def compositionRows (titles_info : List TitleInfo) (twc : List (Nat × Nat)) : List CompRow :=
  twc.map (compRowOf titles_info (compositionTotal twc))

/-- `composition_df`, sorted by Percentage descending (app.py line 1147); the
sort is modelled by a deterministic merge sort - the claims about the table
only use that the rows are a permutation of `composition_data`. -/
def composition_df (titles_info : List TitleInfo) (twc : List (Nat × Nat)) : List CompRow :=
  (compositionRows titles_info twc).mergeSort (fun a b => decide (b.percentage ≤ a.percentage))

/-- Sum of the Percentage column. -/
def sumPercentages (rows : List CompRow) : ℚ := (rows.map CompRow.percentage).sum

/-! ### Session state and the snapshot pipeline (app.py lines 343-491) -/

/-- Result of a top-level catalog fetch: the parsed payload, or any failure
(non-200 status, timeout, transport error), upon which `get_agencies` /
`get_titles` return `[]`. -/
inductive NetResult (α : Type) where
  | ok (payload : α)
  | err

/-- The output tables of one snapshot ("Agency Analysis") run: the word-count
dict, the attributed per-agency totals, the full-agency DataFrame (`df`, with
`astype(int)` applied), the senior-agency view, and the per-title DataFrame. -/
structure Tables where
  title_word_counts : List (Nat × Nat)
  agency_word_counts : List (String × ℚ)
  df : List (String × ℤ)
  senior_df : List (String × ℤ)
  title_df : List (String × Nat)

/-- Placeholder used for the unreachable cached-retrieval branch (see
`agencyAnalysis`). -/
def emptyTables : Tables := ⟨[], [], [], [], []⟩

/-- The parts of `st.session_state` the snapshot pipeline touches:
the `agencies_cache` / `titles_cache` entries, the per-title content cache,
the set of analysis-level bare keys present (`cache_key in st.session_state`,
line 348), and the suffixed result entries stored at lines 485-491 (grouped
here as one `Tables` value per bare key). -/
structure Session where
  agenciesCache : Option (List Agency)
  titlesCache : Option (List TitleInfo)
  contentCache : ContentCache
  analysisBareKeys : String → Bool
  storedTables : String → Option Tables

/-- Embedding of `get_agencies` (app.py lines 31-57): cache read unless
`force_refresh`, fetch otherwise, store on success when caching is enabled,
return `[]` on any failure. -/
def get_agencies (cacheOn : Bool) (netA : NetResult (List Agency)) (s : Session)
    (force_refresh : Bool) : List Agency × Session :=
  if !force_refresh && cacheOn && s.agenciesCache.isSome then
    (s.agenciesCache.getD [], s)
  else
    match netA with
    | .ok payload =>
      (payload, if cacheOn then { s with agenciesCache := some payload } else s)
    | .err => ([], s)

/-- Embedding of `get_titles` (app.py lines 59-85), same shape as
`get_agencies`. -/
def get_titles (cacheOn : Bool) (netT : NetResult (List TitleInfo)) (s : Session)
    (force_refresh : Bool) : List TitleInfo × Session :=
  if !force_refresh && cacheOn && s.titlesCache.isSome then
    (s.titlesCache.getD [], s)
  else
    match netT with
    | .ok payload =>
      (payload, if cacheOn then { s with titlesCache := some payload } else s)
    | .err => ([], s)

/-- Parameters of one snapshot request. `throttleRepr` is the rendered form of
the float `throttle_delay` as an f-string embeds it. -/
structure SnapParams where
  max_titles : Nat
  target_date : String
  skip : Bool
  timeout : Nat
  throttleRepr : String
deriving DecidableEq

/-- The snapshot cache key (app.py line 345):
`f"agency_analysis_{max_titles}_{target_date_str}_{skip_problematic_titles}_{request_timeout}_{throttle_delay}"`. -/
def agency_analysis_key (p : SnapParams) : String :=
  "agency_analysis_" ++ toString p.max_titles ++ "_" ++ p.target_date ++ "_" ++
    pyBool p.skip ++ "_" ++ toString p.timeout ++ "_" ++ p.throttleRepr

/-- The per-agency DataFrame rows with `astype(int)` applied
(app.py lines 460-461). The attributed totals are nonnegative, on which
float-to-int conversion is the floor. -/
def dfRows (awc : List (String × ℚ)) : List (String × ℤ) :=
  awc.map (fun p => (p.1, p.2.floor))

/-- Descending sort by the Word Count column (`sort_values(by="Word Count",
ascending=False)`), modelled by a deterministic merge sort. -/
def sortRowsDesc (l : List (String × ℤ)) : List (String × ℤ) :=
  l.mergeSort (fun a b => decide (b.2 ≤ a.2))

/-- Descending sort of the per-title rows. -/
def sortTitleRowsDesc (l : List (String × Nat)) : List (String × Nat) :=
  l.mergeSort (fun a b => decide (b.2 ≤ a.2))

/-- Construction of the output tables from the computed data
(app.py lines 459-474). `senior_agencies` is the list of top-level agency
names (line 465). -/
def buildTables (agencies : List Agency) (twc : List (Nat × Nat))
    (awc : List (String × ℚ)) : Tables :=
  let df := sortRowsDesc (dfRows awc)
  let senior := agencies.map Agency.name
  let senior_df := sortRowsDesc (df.filter (fun r => senior.contains r.1))
  let title_df := sortTitleRowsDesc (twc.map (fun p => ("Title " ++ toString p.1, p.2)))
  ⟨twc, awc, df, senior_df, title_df⟩

/-- Embedding of the snapshot computation behind the "Calculate Word Counts"
button (app.py lines 343-491). Note the bare `cache_key` is never written by
this path (lines 485-491 store only suffixed keys), so the cached-retrieval
branch at line 348 can only trigger if some earlier state already contains the
bare key; the model keeps the branch for faithfulness. -/
def agencyAnalysis (cacheOn : Bool) (netA : NetResult (List Agency))
    (netT : NetResult (List TitleInfo)) (oracle : Oracle)
    (parse : String → Option String) (p : SnapParams) (s : Session) :
    Tables × Session :=
  let akey := agency_analysis_key p
  if cacheOn && s.analysisBareKeys akey then
    ((s.storedTables akey).getD emptyTables, s)
  else
    let ra := get_agencies cacheOn netA s (!cacheOn)
    let rt := get_titles cacheOn netT ra.2 (!cacheOn)
    let agencies := ra.1
    let titles_info := rt.1
    let t2a := invertMapping (create_agency_title_mapping agencies)
    let st := snapshotTitles p.skip cacheOn oracle parse p.target_date
      (titles_info.take p.max_titles) rt.2.contentCache
    let awc := attributeTitles st.twc (fun t => lookupAgencies t2a t)
    let T := buildTables agencies st.twc awc
    let s3 : Session := { rt.2 with contentCache := st.cache }
    let s4 :=
      if cacheOn then
        { s3 with storedTables := fun k => if k = akey then some T else s3.storedTables k }
      else s3
    (T, s4)

/-! ### Time-series and composition cache keys (app.py lines 863-865, 1025) -/

/-- Parameters of one time-series request. -/
structure TSParams where
  start_year : Nat
  end_year : Nat
  max_titles : Nat
  target_date : String
  skip : Bool
  timeout : Nat
  throttleRepr : String
  selected_agencies : List String
deriving DecidableEq

/-- The time-series cache key (app.py line 865):
`f"wordcount_time_{start_year}_{end_year}_{max_titles}_{target_date_str}_{skip_problematic_titles}_{request_timeout}"`.
Line 864 computes an `agencies_key` from the sorted selection, but the key on
line 865 includes neither it nor `throttle_delay`. -/
def wordcount_time_key (p : TSParams) : String :=
  "wordcount_time_" ++ toString p.start_year ++ "_" ++ toString p.end_year ++ "_" ++
    toString p.max_titles ++ "_" ++ p.target_date ++ "_" ++ pyBool p.skip ++ "_" ++
    toString p.timeout

/-- Parameters of one composition request. -/
structure CompParams where
  selected_agency : String
  target_date : String
  skip : Bool
  timeout : Nat
  throttleRepr : String
deriving DecidableEq

/-- The composition cache key (app.py line 1025):
`f"agency_composition_{selected_agency.replace(' ', '_')}_{target_date_str}_{skip_problematic_titles}_{request_timeout}"`;
`throttle_delay` is not included. -/
def agency_composition_key (p : CompParams) : String :=
  "agency_composition_" ++ underscoreSpaces p.selected_agency ++ "_" ++ p.target_date ++
    "_" ++ pyBool p.skip ++ "_" ++ toString p.timeout

/-! ### Lemmas about the attribution engine -/

theorem sumValues_addToAgency (m : List (String × ℚ)) (a : String) (v : ℚ) :
    sumValues (addToAgency m a v) = sumValues m + v := by
  induction m with
  | nil => simp [addToAgency, sumValues]
  | cons p rest ih =>
    obtain ⟨k, w⟩ := p
    by_cases h : k = a
    · simp [addToAgency, h, sumValues]
      ring
    · simp [addToAgency, h, sumValues] at *
      rw [ih]
      ring

theorem lookupQ_addToAgency (m : List (String × ℚ)) (a b : String) (v : ℚ) :
    lookupQ (addToAgency m a v) b = if b = a then lookupQ m b + v else lookupQ m b := by
  induction m with
  | nil =>
    by_cases h : b = a
    · simp [addToAgency, lookupQ, h]
    · have h2 : ¬a = b := fun he => h he.symm
      simp [addToAgency, lookupQ, h, h2]
  | cons p rest ih =>
    obtain ⟨k, w⟩ := p
    by_cases hk : k = a
    · by_cases hb : k = b
      · have hba : b = a := by rw [← hb, hk]
        simp [addToAgency, hk, lookupQ, hb, hba]
      · have hba : ¬b = a := by
          intro he
          exact hb (by rw [hk, he])
        have hab : ¬a = b := fun he => hba he.symm
        simp [addToAgency, hk, lookupQ, hb, hba, hab]
    · by_cases hb : k = b
      · have hba : ¬b = a := by
          intro he
          exact hk (by rw [hb, he])
        simp [addToAgency, hk, lookupQ, hb, hba]
      · simp [addToAgency, hk, lookupQ, hb, ih]

theorem sumValues_attributeOwners (owners : List String) (m : List (String × ℚ)) (v : ℚ) :
    sumValues (attributeOwners m owners v) = sumValues m + (owners.length : ℚ) * v := by
  induction owners generalizing m with
  | nil => simp [attributeOwners]
  | cons o rest ih =>
    simp only [attributeOwners, List.foldl_cons] at *
    rw [ih, sumValues_addToAgency]
    simp only [List.length_cons]
    push_cast
    ring

theorem lookupQ_attributeOwners (owners : List String) (m : List (String × ℚ))
    (v : ℚ) (a : String) :
    lookupQ (attributeOwners m owners v) a = lookupQ m a + (owners.count a : ℚ) * v := by
  induction owners generalizing m with
  | nil => simp [attributeOwners]
  | cons o rest ih =>
    simp only [attributeOwners, List.foldl_cons] at *
    rw [ih, lookupQ_addToAgency]
    by_cases h : a = o
    · subst h
      simp [List.count_cons]
      ring
    · simp [List.count_cons, h, Ne.symm h]

theorem sumValues_attributeFold (tta : Nat → List String) (twc : List (Nat × Nat))
    (m : List (String × ℚ)) :
    sumValues (twc.foldl (attributeStep tta) m)
      = sumValues m
        + ((twc.filter (fun p => !(tta p.1).isEmpty)).map (fun p => (p.2 : ℚ))).sum := by
  induction twc generalizing m with
  | nil => simp
  | cons p rest ih =>
    rw [List.foldl_cons, ih]
    by_cases h : tta p.1 = []
    · simp [attributeStep, h, List.filter]
    · have hlen : ((tta p.1).length : ℚ) ≠ 0 := by
        have h1 : (tta p.1).length ≠ 0 := by
          simpa [List.length_eq_zero] using h
        exact_mod_cast h1
      have hstep : sumValues (attributeStep tta m p) = sumValues m + (p.2 : ℚ) := by
        simp only [attributeStep, if_neg h]
        rw [sumValues_attributeOwners, mul_div_cancel₀ _ hlen]
      rw [hstep]
      have hne : ((tta p.1).isEmpty : Bool) = false := by
        simpa [List.isEmpty_iff] using h
      simp [List.filter, hne]
      ring

/-- C1. Attribution conservation: for every word-count map and every ownership
index, one `attributeStep` adds exactly `wc/k` to each of the `k ≥ 1` distinct
owners of the title and nothing to non-owners, a title with zero owners is
skipped entirely, and the per-agency totals of the full fold sum to the sum of
`wc(t)` over exactly the titles with at least one owner. -/
theorem attribution_conservation (twc : List (Nat × Nat)) (tta : Nat → List String) :
    (∀ (m : List (String × ℚ)) (t wc : Nat) (a : String), (tta t).Nodup → a ∈ tta t →
        lookupQ (attributeStep tta m (t, wc)) a
          = lookupQ m a + (wc : ℚ) / ((tta t).length : ℚ)) ∧
    (∀ (m : List (String × ℚ)) (t wc : Nat) (a : String), a ∉ tta t →
        lookupQ (attributeStep tta m (t, wc)) a = lookupQ m a) ∧
    (∀ (m : List (String × ℚ)) (t wc : Nat), tta t = [] → attributeStep tta m (t, wc) = m) ∧
    sumValues (attributeTitles twc tta)
      = ((twc.filter (fun p => !(tta p.1).isEmpty)).map (fun p => (p.2 : ℚ))).sum := by
  refine ⟨?_, ?_, ?_, ?_⟩
  · intro m t wc a hnd hmem
    have h : tta t ≠ [] := by
      intro h0
      rw [h0] at hmem
      exact absurd hmem (List.not_mem_nil a)
    simp only [attributeStep, if_neg h]
    rw [lookupQ_attributeOwners, List.count_eq_one_of_mem hnd hmem]
    push_cast
    ring
  · intro m t wc a hmem
    by_cases h : tta t = []
    · simp [attributeStep, h]
    · simp only [attributeStep, if_neg h]
      rw [lookupQ_attributeOwners, List.count_eq_zero_of_not_mem hmem]
      push_cast
      ring
  · intro m t wc h
    simp [attributeStep, h]
  · have h := sumValues_attributeFold tta twc []
    simpa [attributeTitles, sumValues] using h

/-- Concrete instantiation of `attribution_conservation`: title 7 owned by
three agencies with 900 words contributes 300 to each owner, and the grand
total over `{7 ↦ 900, 8 ↦ 50}` with title 8 unowned is 900. -/
theorem attribution_conservation_witness :
    lookupQ (attributeStep (fun t => if t = 7 then ["A", "B", "C"] else []) [] (7, 900)) "A"
        = (300 : ℚ) ∧
    sumValues (attributeTitles [(7, 900), (8, 50)]
        (fun t => if t = 7 then ["A", "B", "C"] else [])) = 900 := by
  constructor
  · have h := (attribution_conservation [(7, 900), (8, 50)]
      (fun t => if t = 7 then ["A", "B", "C"] else [])).1 [] 7 900 "A"
      (by decide) (by decide)
    rw [h]
    norm_num [lookupQ]
  · have h := (attribution_conservation [(7, 900), (8, 50)]
      (fun t => if t = 7 then ["A", "B", "C"] else [])).2.2.2
    rw [h]
    norm_num [List.filter]

/-! ### C6: word counter totality and contract -/

/-- C6. `count_words_in_xml` is total by construction (it is a function into
`Nat`, hence also never negative and never raises). `None` and `""` count 0;
when the markup library extracts `"hello world"` from `"<a>hello world</a>"`
the count is 2; whenever the library raises (`parse s = none`) the function
falls back to replacing every `<[^>]+>` match by a space and counting word
runs — in particular for the malformed `"<a>hello"` it returns that word-run
count, which is 1. -/
theorem countWords_total_contract (parse : String → Option String) :
    count_words_in_xml parse none = 0 ∧
    count_words_in_xml parse (some "") = 0 ∧
    (parse "<a>hello world</a>" = some "hello world" →
      count_words_in_xml parse (some "<a>hello world</a>") = 2) ∧
    (∀ s : String, s ≠ "" → parse s = none →
      count_words_in_xml parse (some s) = countWordRuns (stripTags s)) ∧
    (parse "<a>hello" = none →
      count_words_in_xml parse (some "<a>hello") = 1 ∧
      countWordRuns (stripTags "<a>hello") = 1) := by
  refine ⟨rfl, rfl, ?_, ?_, ?_⟩
  · intro h
    simp only [count_words_in_xml, h]
    decide
  · intro s hs h
    simp [count_words_in_xml, h, hs]
  · intro h
    constructor
    · simp only [count_words_in_xml, h]
      decide
    · decide

/-- Concrete instantiation of `countWords_total_contract` for an extraction
oracle that succeeds on the well-formed document and raises on the malformed
one. -/
theorem countWords_total_contract_witness :
    count_words_in_xml
        (fun s => if s = "<a>hello world</a>" then some "hello world" else none)
        (some "<a>hello world</a>") = 2 ∧
    count_words_in_xml
        (fun s => if s = "<a>hello world</a>" then some "hello world" else none)
        (some "<a>hello") = 1 := by
  constructor
  · exact (countWords_total_contract _).2.2.1 (by decide)
  · exact ((countWords_total_contract _).2.2.2.2 (by decide)).1

/-! ### C2: depth of the ownership index -/

theorem mem_setAdd (s : List Nat) (x t : Nat) : t ∈ setAdd s x ↔ t ∈ s ∨ t = x := by
  by_cases h : x ∈ s
  · simp only [setAdd, if_pos h]
    constructor
    · exact fun hm => Or.inl hm
    · rintro (hm | rfl)
      · exact hm
      · exact h
  · simp [setAdd, h]

theorem lookupTitles_dictAddTitle (m : List (String × List Nat)) (k n : String) (x : Nat) :
    lookupTitles (dictAddTitle m k x) n
      = if k = n then setAdd (lookupTitles m n) x else lookupTitles m n := by
  induction m with
  | nil =>
    by_cases h : k = n
    · simp [dictAddTitle, lookupTitles, h, setAdd]
    · simp [dictAddTitle, lookupTitles, h]
  | cons p rest ih =>
    obtain ⟨k0, s⟩ := p
    by_cases h0 : k0 = k
    · by_cases hn : k0 = n
      · have hkn : k = n := by rw [← h0, hn]
        simp [dictAddTitle, lookupTitles, h0, hn, hkn]
      · have hkn : ¬k = n := fun he => hn (by rw [h0, he])
        simp [dictAddTitle, lookupTitles, h0, hn, hkn]
    · by_cases hn : k0 = n
      · have hkn : ¬k = n := fun he => h0 (by rw [he, ← hn])
        have hnk : ¬n = k := fun he => hkn he.symm
        simp [dictAddTitle, lookupTitles, h0, hn, hkn, hnk]
      · simp [dictAddTitle, lookupTitles, h0, hn, ih]

theorem mem_lookupTitles_addRefs (refs : List CFRRef) (m : List (String × List Nat))
    (nm n : String) (t : Nat) :
    t ∈ lookupTitles (addRefs m nm refs) n
      ↔ t ∈ lookupTitles m n ∨ (nm = n ∧ ∃ r ∈ refs, r.title? = some t) := by
  induction refs generalizing m with
  | nil => simp [addRefs]
  | cons r rest ih =>
    cases hr : r.title? with
    | none =>
      have hstep : addRefs m nm (r :: rest) = addRefs m nm rest := by
        simp [addRefs, hr]
      rw [hstep, ih]
      constructor
      · rintro (hm | ⟨hn, r2, hr2, ht2⟩)
        · exact Or.inl hm
        · exact Or.inr ⟨hn, r2, List.mem_cons_of_mem r hr2, ht2⟩
      · rintro (hm | ⟨hn, r2, hr2, ht2⟩)
        · exact Or.inl hm
        · rcases List.mem_cons.mp hr2 with rfl | h3
          · rw [hr] at ht2
            cases ht2
          · exact Or.inr ⟨hn, r2, h3, ht2⟩
    | some x =>
      have hstep : addRefs m nm (r :: rest) = addRefs (dictAddTitle m nm x) nm rest := by
        simp [addRefs, hr]
      rw [hstep, ih]
      constructor
      · rintro (hm | ⟨hn, r2, hr2, ht2⟩)
        · rw [lookupTitles_dictAddTitle] at hm
          by_cases h : nm = n
          · rw [if_pos h] at hm
            rcases (mem_setAdd _ _ _).mp hm with hm2 | rfl
            · exact Or.inl hm2
            · exact Or.inr ⟨h, r, List.mem_cons_self r rest, by rw [hr]⟩
          · rw [if_neg h] at hm
            exact Or.inl hm
        · exact Or.inr ⟨hn, r2, List.mem_cons_of_mem r hr2, ht2⟩
      · rintro (hm | ⟨hn, r2, hr2, ht2⟩)
        · left
          rw [lookupTitles_dictAddTitle]
          by_cases h : nm = n
          · rw [if_pos h]
            exact (mem_setAdd _ _ _).mpr (Or.inl hm)
          · rw [if_neg h]
            exact hm
        · rcases List.mem_cons.mp hr2 with rfl | h3
          · rw [hr] at ht2
            have hx : x = t := Option.some_inj.mp ht2
            left
            rw [lookupTitles_dictAddTitle, if_pos hn]
            exact (mem_setAdd _ _ _).mpr (Or.inr hx.symm)
          · exact Or.inr ⟨hn, r2, h3, ht2⟩

theorem mem_lookupTitles_childFold (children : List Agency) (m : List (String × List Nat))
    (n : String) (t : Nat) :
    t ∈ lookupTitles
        (children.foldl (fun m c => addRefs m c.name c.cfr_references) m) n
      ↔ t ∈ lookupTitles m n
        ∨ ∃ c ∈ children, c.name = n ∧ ∃ r ∈ c.cfr_references, r.title? = some t := by
  induction children generalizing m with
  | nil => simp
  | cons c rest ih =>
    simp only [List.foldl_cons]
    rw [ih, mem_lookupTitles_addRefs]
    constructor
    · rintro ((hm | ⟨hn, hr⟩) | ⟨c2, hc2, hn2, hr2⟩)
      · exact Or.inl hm
      · exact Or.inr ⟨c, List.mem_cons_self c rest, hn, hr⟩
      · exact Or.inr ⟨c2, List.mem_cons_of_mem c hc2, hn2, hr2⟩
    · rintro (hm | ⟨c2, hc2, hn2, hr2⟩)
      · exact Or.inl (Or.inl hm)
      · rcases List.mem_cons.mp hc2 with rfl | hc3
        · exact Or.inl (Or.inr ⟨hn2, hr2⟩)
        · exact Or.inr ⟨c2, hc3, hn2, hr2⟩

theorem mem_lookupTitles_agencyFold (agencies : List Agency)
    (m : List (String × List Nat)) (n : String) (t : Nat) :
    t ∈ lookupTitles
        (agencies.foldl
          (fun m a =>
            let m := addRefs m a.name a.cfr_references
            a.children.foldl (fun m c => addRefs m c.name c.cfr_references) m) m) n
      ↔ t ∈ lookupTitles m n
        ∨ ∃ a ∈ agencies,
            (a.name = n ∧ ∃ r ∈ a.cfr_references, r.title? = some t)
            ∨ ∃ c ∈ a.children, c.name = n ∧ ∃ r ∈ c.cfr_references, r.title? = some t := by
  induction agencies generalizing m with
  | nil => simp
  | cons a rest ih =>
    simp only [List.foldl_cons]
    rw [ih, mem_lookupTitles_childFold, mem_lookupTitles_addRefs]
    constructor
    · rintro (((hm | ⟨hn, hr⟩) | ⟨c, hc, hn, hr⟩) | ⟨a2, ha2, hcase⟩)
      · exact Or.inl hm
      · exact Or.inr ⟨a, List.mem_cons_self a rest, Or.inl ⟨hn, hr⟩⟩
      · exact Or.inr ⟨a, List.mem_cons_self a rest, Or.inr ⟨c, hc, hn, hr⟩⟩
      · exact Or.inr ⟨a2, List.mem_cons_of_mem a ha2, hcase⟩
    · rintro (hm | ⟨a2, ha2, hcase⟩)
      · exact Or.inl (Or.inl (Or.inl hm))
      · rcases List.mem_cons.mp ha2 with rfl | ha3
        · rcases hcase with ⟨hn, hr⟩ | ⟨c, hc, hn, hr⟩
          · exact Or.inl (Or.inl (Or.inr ⟨hn, hr⟩))
          · exact Or.inl (Or.inr ⟨c, hc, hn, hr⟩)
        · exact Or.inr ⟨a2, ha3, hcase⟩

/-- C2 (amended). Membership in the ownership index built by
`create_agency_title_mapping`: a title `t` is recorded under name `n` exactly
when some top-level agency named `n` lists `t` in its own `cfr_references`, or
some direct child named `n` of a top-level agency does. Nodes at depth two or
more are never visited (see `ownership_index_misses_grandchild`). -/
theorem ownership_index_depth_two (agencies : List Agency) (n : String) (t : Nat) :
    t ∈ lookupTitles (create_agency_title_mapping agencies) n
      ↔ ∃ a ∈ agencies,
          (a.name = n ∧ ∃ r ∈ a.cfr_references, r.title? = some t)
          ∨ ∃ c ∈ a.children, c.name = n ∧ ∃ r ∈ c.cfr_references, r.title? = some t := by
  have h := mem_lookupTitles_agencyFold agencies [] n t
  simpa [create_agency_title_mapping, lookupTitles] using h

/-- Instantiation of `ownership_index_depth_two`: a direct child's reference
is recorded under the child's name. -/
theorem ownership_index_depth_two_witness :
    4 ∈ lookupTitles
        (create_agency_title_mapping
          [Agency.mk "A" "a" [⟨some 3⟩] [Agency.mk "B" "b" [⟨some 4⟩] []]]) "B" := by
  exact (ownership_index_depth_two
      [Agency.mk "A" "a" [⟨some 3⟩] [Agency.mk "B" "b" [⟨some 4⟩] []]] "B" 4).mpr
    ⟨Agency.mk "A" "a" [⟨some 3⟩] [Agency.mk "B" "b" [⟨some 4⟩] []],
      List.mem_singleton_self _,
      Or.inr ⟨Agency.mk "B" "b" [⟨some 4⟩] [], List.mem_singleton_self _, rfl,
        ⟨some 4⟩, List.mem_singleton_self _, rfl⟩⟩

/-- C2 counterexample: a grandchild agency `"C"` whose own `title_references`
contain 5 gets no entry at all — `create_agency_title_mapping` stops at depth
one, so the claim that every node at any depth is recorded fails here. -/
theorem ownership_index_misses_grandchild :
    ¬ (5 ∈ lookupTitles
        (create_agency_title_mapping
          [Agency.mk "A" "a" []
            [Agency.mk "B" "b" [] [Agency.mk "C" "c" [⟨some 5⟩] []]]]) "C") := by
  decide

/-! ### C4: session-cache key completeness -/

/-- C4 (amended). The snapshot key is a function of the full tuple (titles
processed, date, skip flag, timeout, throttle — in particular two snapshot
requests differing in throttle get different keys), but the time-series key
omits both the throttle delay and the agency selection, and the composition
key omits the throttle delay: requests differing only in an omitted component
resolve to the same cache entry. -/
theorem cache_key_components (p : TSParams) (q : CompParams) (sp : SnapParams)
    (t : String) (sel : List String) (t2 : String) :
    wordcount_time_key { p with throttleRepr := t, selected_agencies := sel }
      = wordcount_time_key p ∧
    agency_composition_key { q with throttleRepr := t2 } = agency_composition_key q ∧
    (∀ t1 t3 : String, t1 ≠ t3 →
      agency_analysis_key { sp with throttleRepr := t1 }
        ≠ agency_analysis_key { sp with throttleRepr := t3 }) := by
  refine ⟨rfl, rfl, ?_⟩
  intro t1 t3 hne heq
  apply hne
  have h2 := congrArg String.data heq
  simp only [agency_analysis_key, String.data_append] at h2
  exact String.ext (List.append_cancel_left h2)

/-- Concrete instantiation of `cache_key_components`. -/
theorem cache_key_components_witness :
    wordcount_time_key ⟨2022, 2024, 5, "2025-01-01", true, 240, "0.5", ["X"]⟩
      = wordcount_time_key ⟨2022, 2024, 5, "2025-01-01", true, 240, "0.2", ["Y"]⟩ ∧
    agency_analysis_key ⟨5, "2025-01-01", true, 240, "0.5"⟩
      ≠ agency_analysis_key ⟨5, "2025-01-01", true, 240, "0.2"⟩ := by
  constructor
  · exact (cache_key_components ⟨2022, 2024, 5, "2025-01-01", true, 240, "0.2", ["Y"]⟩
      ⟨"E", "2025-01-01", true, 240, "0.2"⟩ ⟨5, "2025-01-01", true, 240, "0.2"⟩
      "0.5" ["X"] "0.1").1
  · exact (cache_key_components ⟨2022, 2024, 5, "2025-01-01", true, 240, "0.2", ["Y"]⟩
      ⟨"E", "2025-01-01", true, 240, "0.2"⟩ ⟨5, "2025-01-01", true, 240, "0.2"⟩
      "0.5" ["X"] "0.1").2.2 "0.5" "0.2" (by decide)

/-- C4 counterexample: two time-series requests that differ in the throttle
delay (and in the agency selection, which shapes the cached `time_df`) produce
the identical cache key, so they resolve to the same cache entry — the claim
that such requests never collide is false. -/
theorem ts_cache_key_collision :
    wordcount_time_key ⟨2022, 2024, 5, "2025-01-01", true, 240, "0.2", ["EPA"]⟩
      = wordcount_time_key ⟨2022, 2024, 5, "2025-01-01", true, 240, "0.5", ["DOE"]⟩ ∧
    ("0.2" : String) ≠ "0.5" ∧ (["EPA"] : List String) ≠ ["DOE"] := by
  exact ⟨rfl, by decide, by decide⟩

/-! ### C3: skip-list versus cache lookup in `get_title_content` -/

/-- C3 (amended). For a title on the skip-list with `skip_problematic_titles`
enabled, whenever the cache lookup does not hit (the cache is bypassed by
`force_refresh`, caching is disabled, or the entry is absent),
`get_title_content` returns `None` immediately — zero network requests, cache
unchanged — for any date and any retry setting; consequently the per-title
step of the snapshot/time-series loop and of the composition loop leaves the
word-count map unchanged, so the title is absent from the resulting map. The
skip-list check does NOT precede the cache lookup (see
`skip_list_cache_precedence_cex`). -/
theorem skip_list_policy (cacheOn : Bool) (oracle : Oracle) (parse : String → Option String) :
    (∀ (cache : ContentCache) (n : Nat) (d : String) (mr : Nat) (fr : Bool),
        n ∈ problematicTitles →
        (fr = true ∨ cacheOn = false ∨ cache (n, d) = none) →
        get_title_content true cacheOn oracle cache n d mr fr = ⟨none, cache, 0⟩) ∧
    (∀ (target : String) (fr : Bool) (s : SnapState) (ti : TitleInfo),
        ti.number ∈ problematicTitles → ti.reserved = false →
        (fr = true ∨ cacheOn = false ∨ s.cache (ti.number, useDate ti target) = none) →
        (loopStep true cacheOn oracle parse target fr s ti).twc = s.twc ∧
        (loopStep true cacheOn oracle parse target fr s ti).fetchLog = s.fetchLog) ∧
    (∀ (target : String) (s : CompState) (ti : TitleInfo),
        ti.number ∈ problematicTitles → ti.reserved = false →
        (cacheOn = false ∨ s.cache (ti.number, useDate ti target) = none) →
        (compositionStep true cacheOn oracle parse target s ti).twc = s.twc) := by
  have key : ∀ (cache : ContentCache) (n : Nat) (d : String) (mr : Nat) (fr : Bool),
      n ∈ problematicTitles →
      (fr = true ∨ cacheOn = false ∨ cache (n, d) = none) →
      get_title_content true cacheOn oracle cache n d mr fr = ⟨none, cache, 0⟩ := by
    intro cache n d mr fr hn hmiss
    have hc : (!fr && cacheOn && (cache (n, d)).isSome) = false := by
      rcases hmiss with rfl | rfl | hnone
      · simp
      · simp
      · simp [hnone]
    have hmem : problematicTitles.contains n = true := List.elem_iff.mpr hn
    simp [get_title_content, hc, hmem, hn]
  refine ⟨key, ?_, ?_⟩
  · intro target fr s ti hn hres hmiss
    have h1 := key s.cache ti.number (useDate ti target) 1 fr hn hmiss
    constructor <;> simp [loopStep, hres, h1]
  · intro target s ti hn hres hmiss
    have h1 := key s.cache ti.number (useDate ti target) 1 (!cacheOn) hn (Or.inr hmiss)
    simp [compositionStep, hres, h1]

/-- Concrete instantiation of `skip_list_policy`: title 42 with an empty
cache — `None`, no request, and the snapshot step records nothing. -/
theorem skip_list_policy_witness :
    get_title_content true true (fun _ _ _ => FetchOutcome.error) (fun _ => none)
        42 "2024-01-01" 1 false = ⟨none, fun _ => none, 0⟩ ∧
    (loopStep true true (fun _ _ _ => FetchOutcome.error) (fun _ => none) "2025-01-01"
        false ⟨[], fun _ => none, []⟩ ⟨42, "Public Health", "2024-01-01", false⟩).twc
      = [] := by
  constructor
  · exact (skip_list_policy true (fun _ _ _ => FetchOutcome.error) (fun _ => none)).1
      (fun _ => none) 42 "2024-01-01" 1 false (by decide) (Or.inr (Or.inr rfl))
  · exact ((skip_list_policy true (fun _ _ _ => FetchOutcome.error) (fun _ => none)).2.1
      "2025-01-01" false ⟨[], fun _ => none, []⟩
      ⟨42, "Public Health", "2024-01-01", false⟩ (by decide) rfl (Or.inr (Or.inr rfl))).1

/-- C3 counterexample: the cache lookup precedes the skip-list check. With
caching enabled and a cached entry present for `(42, 2024-01-01)`,
`get_title_content` returns the cached content, not `None`, even though title
42 is on the skip-list and skipping is enabled. -/
theorem skip_list_cache_precedence_cex :
    (get_title_content true true (fun _ _ _ => FetchOutcome.error)
        (fun k => if k = (42, "2024-01-01") then some "cached" else none)
        42 "2024-01-01" 1 false).result = some "cached" ∧
    (get_title_content true true (fun _ _ _ => FetchOutcome.error)
        (fun k => if k = (42, "2024-01-01") then some "cached" else none)
        42 "2024-01-01" 1 false).result ≠ none := by
  constructor
  · decide
  · decide

/-! ### C8: reserved titles are excluded before any fetch -/

/-- C8. In all three aggregation paths a title entry with `reserved = true` is
a complete no-op: the per-title step returns the state unchanged (no network
request is logged, the cache is untouched, nothing enters any word-count map,
hence nothing reaches any per-agency total), and each loop equals the loop
over the reserved-filtered list. The snapshot and time-series loops are the
`fr = not cache_results` and `fr = false` instances of `loopStep`. -/
theorem reserved_titles_excluded (skip cacheOn : Bool) (oracle : Oracle)
    (parse : String → Option String) (target : String) :
    (∀ (fr : Bool) (s : SnapState) (ti : TitleInfo), ti.reserved = true →
        loopStep skip cacheOn oracle parse target fr s ti = s) ∧
    (∀ (s : CompState) (ti : TitleInfo), ti.reserved = true →
        compositionStep skip cacheOn oracle parse target s ti = s) ∧
    (∀ (fr : Bool) (titles : List TitleInfo) (s0 : SnapState),
        titles.foldl (loopStep skip cacheOn oracle parse target fr) s0
          = (titles.filter (fun ti => !ti.reserved)).foldl
              (loopStep skip cacheOn oracle parse target fr) s0) ∧
    (∀ (titles : List TitleInfo) (s0 : CompState),
        titles.foldl (compositionStep skip cacheOn oracle parse target) s0
          = (titles.filter (fun ti => !ti.reserved)).foldl
              (compositionStep skip cacheOn oracle parse target) s0) := by
  have h1 : ∀ (fr : Bool) (s : SnapState) (ti : TitleInfo), ti.reserved = true →
      loopStep skip cacheOn oracle parse target fr s ti = s := by
    intro fr s ti h
    simp [loopStep, h]
  have h2 : ∀ (s : CompState) (ti : TitleInfo), ti.reserved = true →
      compositionStep skip cacheOn oracle parse target s ti = s := by
    intro s ti h
    simp [compositionStep, h]
  refine ⟨h1, h2, ?_, ?_⟩
  · intro fr titles
    induction titles with
    | nil => intro s0; rfl
    | cons ti rest ih =>
      intro s0
      by_cases h : ti.reserved
      · rw [List.foldl_cons, h1 fr s0 ti h, List.filter_cons]
        simp only [h, Bool.not_true, Bool.false_eq_true, if_false]
        exact ih s0
      · rw [List.foldl_cons, List.filter_cons]
        have hb : (!ti.reserved) = true := by simp [h]
        simp only [hb, if_true, List.foldl_cons]
        exact ih _
  · intro titles
    induction titles with
    | nil => intro s0; rfl
    | cons ti rest ih =>
      intro s0
      by_cases h : ti.reserved
      · rw [List.foldl_cons, h2 s0 ti h, List.filter_cons]
        simp only [h, Bool.not_true, Bool.false_eq_true, if_false]
        exact ih s0
      · rw [List.foldl_cons, List.filter_cons]
        have hb : (!ti.reserved) = true := by simp [h]
        simp only [hb, if_true, List.foldl_cons]
        exact ih _

/-- Concrete instantiation of `reserved_titles_excluded`: a reserved title is
a no-op of the snapshot step. -/
theorem reserved_titles_excluded_witness :
    loopStep true true (fun _ _ _ => FetchOutcome.error) (fun _ => none) "2025-01-01"
        false ⟨[], fun _ => none, []⟩ ⟨35, "Reserved", "2030-01-01", true⟩
      = ⟨[], fun _ => none, []⟩ := by
  exact (reserved_titles_excluded true true (fun _ _ _ => FetchOutcome.error)
      (fun _ => none) "2025-01-01").1 false ⟨[], fun _ => none, []⟩
    ⟨35, "Reserved", "2030-01-01", true⟩ rfl

/-! ### C10: truthiness gate for entering the word-count map -/

/-- Read of the `title_word_counts` dict. -/
def lookupCount : List (Nat × Nat) → Nat → Option Nat
  | [], _ => none
  | (k, v) :: rest, n => if k = n then some v else lookupCount rest n

theorem lookupCount_dictInsert (m : List (Nat × Nat)) (k v n : Nat) :
    lookupCount (dictInsert m k v) n = if k = n then some v else lookupCount m n := by
  induction m with
  | nil =>
    by_cases h : k = n <;> simp [dictInsert, lookupCount, h]
  | cons p rest ih =>
    obtain ⟨k0, v0⟩ := p
    by_cases h0 : k0 = k
    · by_cases hn : k0 = n
      · have hkn : k = n := by rw [← h0, hn]
        simp [dictInsert, lookupCount, h0, hn, hkn]
      · have hkn : ¬k = n := fun he => hn (by rw [h0, he])
        simp [dictInsert, lookupCount, h0, hn, hkn]
    · by_cases hn : k0 = n
      · have hkn : ¬k = n := fun he => h0 (by rw [he, ← hn])
        have hnk : ¬n = k := fun he => hkn he.symm
        simp [dictInsert, lookupCount, h0, hn, hkn, hnk]
      · simp [dictInsert, lookupCount, h0, hn, ih]

/-- C10. In the snapshot loop (`fr = not cache_results`), the time-series loop
(`fr = false`) and the composition loop alike, a processed non-reserved title
gains an entry in the per-run word-count map exactly when the fetched content
is truthy — `some c` with `c ≠ ""` (`if title_content:`); a `None` result and
a successful-but-empty result both leave the map without that entry (in
particular no entry with count 0 is created for them). -/
theorem truthiness_insertion (skip cacheOn : Bool) (oracle : Oracle)
    (parse : String → Option String) (target : String) :
    (∀ (fr : Bool) (s : SnapState) (ti : TitleInfo) (n : Nat), ti.reserved = false →
        ((lookupCount (loopStep skip cacheOn oracle parse target fr s ti).twc n).isSome
          ↔ (lookupCount s.twc n).isSome
            ∨ (n = ti.number ∧ ∃ c, (get_title_content skip cacheOn oracle s.cache
                ti.number (useDate ti target) 1 fr).result = some c ∧ c ≠ ""))) ∧
    (∀ (s : CompState) (ti : TitleInfo) (n : Nat), ti.reserved = false →
        ((lookupCount (compositionStep skip cacheOn oracle parse target s ti).twc n).isSome
          ↔ (lookupCount s.twc n).isSome
            ∨ (n = ti.number ∧ ∃ c, (get_title_content skip cacheOn oracle s.cache
                ti.number (useDate ti target) 1 (!cacheOn)).result = some c ∧ c ≠ ""))) := by
  constructor
  · intro fr s ti n hres
    cases hr : (get_title_content skip cacheOn oracle s.cache ti.number
        (useDate ti target) 1 fr).result with
    | none =>
      simp [loopStep, hres, hr]
    | some c =>
      by_cases hc : c = ""
      · subst hc
        simp [loopStep, hres, hr]
      · simp only [loopStep, hres, Bool.false_eq_true, if_false, hr]
        by_cases hn : ti.number = n
        · simp [lookupCount_dictInsert, hn, hc, hr]
        · have hnn : ¬n = ti.number := fun he => hn he.symm
          simp [lookupCount_dictInsert, hn, hnn, hc, hr]
  · intro s ti n hres
    cases hr : (get_title_content skip cacheOn oracle s.cache ti.number
        (useDate ti target) 1 (!cacheOn)).result with
    | none =>
      simp [compositionStep, hres, hr]
    | some c =>
      by_cases hc : c = ""
      · subst hc
        simp [compositionStep, hres, hr]
      · simp only [compositionStep, hres, Bool.false_eq_true, if_false, hr]
        by_cases hn : ti.number = n
        · simp [lookupCount_dictInsert, hn, hc, hr]
        · have hnn : ¬n = ti.number := fun he => hn he.symm
          simp [lookupCount_dictInsert, hn, hnn, hc, hr]

/-- Concrete instantiation of `truthiness_insertion`: a fetch that succeeds
with nonempty content enters the map, one that succeeds with `""` does not. -/
theorem truthiness_insertion_witness :
    (lookupCount (loopStep false false (fun _ _ _ => FetchOutcome.success "hello")
        (fun _ => none) "2025-01-01" true ⟨[], fun _ => none, []⟩
        ⟨1, "T", "2030-01-01", false⟩).twc 1).isSome = true ∧
    (lookupCount (loopStep false false (fun _ _ _ => FetchOutcome.success "")
        (fun _ => none) "2025-01-01" true ⟨[], fun _ => none, []⟩
        ⟨1, "T", "2030-01-01", false⟩).twc 1).isSome = false := by
  constructor
  · exact ((truthiness_insertion false false (fun _ _ _ => FetchOutcome.success "hello")
        (fun _ => none) "2025-01-01").1 true ⟨[], fun _ => none, []⟩
        ⟨1, "T", "2030-01-01", false⟩ 1 rfl).mpr
      (Or.inr ⟨rfl, "hello", by decide, by decide⟩)
  · have h := ((truthiness_insertion false false (fun _ _ _ => FetchOutcome.success "")
        (fun _ => none) "2025-01-01").1 true ⟨[], fun _ => none, []⟩
        ⟨1, "T", "2030-01-01", false⟩ 1 rfl)
    by_contra hb
    have hb2 : (lookupCount (loopStep false false (fun _ _ _ => FetchOutcome.success "")
        (fun _ => none) "2025-01-01" true ⟨[], fun _ => none, []⟩
        ⟨1, "T", "2030-01-01", false⟩).twc 1).isSome = true := by
      revert hb
      cases (lookupCount (loopStep false false (fun _ _ _ => FetchOutcome.success "")
          (fun _ => none) "2025-01-01" true ⟨[], fun _ => none, []⟩
          ⟨1, "T", "2030-01-01", false⟩).twc 1).isSome
      · intro hb
        exact absurd rfl hb
      · intro _
        rfl
    rcases h.mp hb2 with hfalse | ⟨_, c, hcres, hcne⟩
    · simp [lookupCount] at hfalse
    · have : c = "" := by
        have hres : (get_title_content false false (fun _ _ _ => FetchOutcome.success "")
            (fun _ => none) 1 (useDate ⟨1, "T", "2030-01-01", false⟩ "2025-01-01") 1
            true).result = some "" := by decide
        rw [hres] at hcres
        exact (Option.some_inj.mp hcres).symm
      exact hcne this

/-! ### C7: composition title selection -/

theorem relevantInit_empty (titles_info : List TitleInfo) (owned : List Nat) :
    titles_info.filter (fun t => owned.any (fun n => pyStrEqNat (toString t.number) n)) = [] := by
  induction titles_info with
  | nil => rfl
  | cons t rest ih => simp [List.filter_cons, pyStrEqNat, ih]

/-- C7 (amended). When at least one owned title number has a matching catalog
entry (matching by decimal-string comparison, which is how the source compares
`str(t["number"]) == str(title_num)`; on distinct catalog numbers this is
exactly "the owned titles present in the catalog"), the composition loop
processes exactly those catalog entries whose number matches an owned number —
no capped prefix, and `max_titles` is not even a parameter of the selection.
When the agency's owned set is nonempty but none of its numbers match any
catalog entry, the selection falls back to the first 10 catalog titles
(`titles_info[:10]`), which is what breaks the original claim (see
`composition_fallback_cex`). -/
theorem composition_scope (titles_info : List TitleInfo) (owned : List Nat)
    (hnodup : (titles_info.map (fun t => toString t.number)).Nodup) :
    ((∃ n ∈ owned, ∃ u ∈ titles_info, toString u.number = toString n) →
      ∀ t : TitleInfo, t ∈ relevant_titles titles_info owned
        ↔ t ∈ titles_info ∧ ∃ n ∈ owned, toString t.number = toString n) ∧
    ((∀ n ∈ owned, ∀ u ∈ titles_info, toString u.number ≠ toString n) →
      relevant_titles titles_info owned = titles_info.take 10) := by
  have h0 := relevantInit_empty titles_info owned
  constructor
  · rintro ⟨n0, hn0, u0, hu0, hequ⟩ t
    have hsome : (titles_info.find?
        (fun t => toString t.number == toString n0)).isSome = true := by
      rw [List.find?_isSome]
      exact ⟨u0, hu0, by simp [hequ]⟩
    have hne : ¬(owned.filterMap (fun n => titles_info.find?
        (fun t => toString t.number == toString n))).isEmpty = true := by
      rw [List.isEmpty_iff]
      intro hemp
      obtain ⟨v, hv⟩ := Option.isSome_iff_exists.mp hsome
      have hvmem : v ∈ owned.filterMap (fun n => titles_info.find?
          (fun t => toString t.number == toString n)) :=
        List.mem_filterMap.mpr ⟨n0, hn0, hv⟩
      rw [hemp] at hvmem
      exact absurd hvmem (List.not_mem_nil v)
    have hrel : relevant_titles titles_info owned
        = owned.filterMap (fun n => titles_info.find?
            (fun t => toString t.number == toString n)) := by
      simp only [relevant_titles, h0]
      simp [hne]
    rw [hrel, List.mem_filterMap]
    constructor
    · rintro ⟨n, hn, hfind⟩
      refine ⟨List.mem_of_find?_eq_some hfind, n, hn, ?_⟩
      have := List.find?_some hfind
      simpa using this
    · rintro ⟨htmem, n, hn, heq⟩
      have hsome2 : (titles_info.find?
          (fun t => toString t.number == toString n)).isSome = true := by
        rw [List.find?_isSome]
        exact ⟨t, htmem, by simp [heq]⟩
      obtain ⟨u, hu⟩ := Option.isSome_iff_exists.mp hsome2
      have huq : toString u.number = toString n := by
        have := List.find?_some hu
        simpa using this
      have humem := List.mem_of_find?_eq_some hu
      have hut : u = t :=
        List.inj_on_of_nodup_map hnodup humem htmem (by rw [huq, heq])
      exact ⟨n, hn, by rw [← hut] at *; exact hu⟩
  · intro hmiss
    have hall : owned.filterMap (fun n => titles_info.find?
        (fun t => toString t.number == toString n)) = [] := by
      rw [List.filterMap_eq_nil_iff]
      intro n hn
      rw [List.find?_eq_none]
      intro u hu
      simp [hmiss n hn u hu]
    simp only [relevant_titles, h0]
    simp [hall]

/-- Concrete instantiation of `composition_scope`: with catalog titles 5 and 6
and ownership `{5}`, exactly the entry for title 5 is selected. -/
theorem composition_scope_witness :
    (⟨5, "Five", "2024-01-01", false⟩ : TitleInfo) ∈ relevant_titles
        [⟨5, "Five", "2024-01-01", false⟩, ⟨6, "Six", "2024-01-01", false⟩] [5] ∧
    ¬ ((⟨6, "Six", "2024-01-01", false⟩ : TitleInfo) ∈ relevant_titles
        [⟨5, "Five", "2024-01-01", false⟩, ⟨6, "Six", "2024-01-01", false⟩] [5]) := by
  have h := (composition_scope
      [⟨5, "Five", "2024-01-01", false⟩, ⟨6, "Six", "2024-01-01", false⟩] [5]
      (by decide)).1
    ⟨5, List.mem_singleton_self 5, ⟨5, "Five", "2024-01-01", false⟩,
      List.mem_cons_self _ _, by decide⟩
  constructor
  · exact (h ⟨5, "Five", "2024-01-01", false⟩).mpr
      ⟨List.mem_cons_self _ _, 5, List.mem_singleton_self 5, by decide⟩
  · intro hmem
    rcases (h ⟨6, "Six", "2024-01-01", false⟩).mp hmem with ⟨_, n, hn, heq⟩
    rw [List.mem_singleton] at hn
    subst hn
    exact absurd heq (by decide)

/-- Eleven catalog titles numbered 1..11, used by `composition_fallback_cex`. -/
def fallbackTitles : List TitleInfo :=
  (List.range 11).map (fun i => ⟨i + 1, "T", "2024-01-01", false⟩)

/-- C7 counterexample: the agency owns title 99 (a nonempty owned set), which
has no catalog entry; the selection then falls back to `titles_info[:10]` — a
capped prefix of the catalog containing, e.g., title 1, which the agency does
not own. The claim "never a capped prefix and never an unowned title" is
false. -/
theorem composition_fallback_cex :
    relevant_titles fallbackTitles [99] = fallbackTitles.take 10 ∧
    (relevant_titles fallbackTitles [99]).length = 10 ∧
    (⟨1, "T", "2024-01-01", false⟩ : TitleInfo) ∈ relevant_titles fallbackTitles [99] ∧
    (1 : Nat) ∉ ([99] : List Nat) ∧ ([99] : List Nat) ≠ [] := by
  refine ⟨by decide, by decide, by decide, by decide, by decide⟩

/-! ### C9: composition percentage sum -/

theorem roundHalfEven_sub_le (q : ℚ) : |(roundHalfEven q : ℚ) - q| ≤ 1 / 2 := by
  have h0 : ((⌊q⌋ : ℤ) : ℚ) ≤ q := Int.floor_le q
  have h1 : q < (⌊q⌋ : ℚ) + 1 := Int.lt_floor_add_one q
  unfold roundHalfEven
  split_ifs with ha hb hc <;> rw [abs_le] <;> constructor <;> push_cast <;> linarith

theorem round2_sub_le (q : ℚ) : |round2 q - q| ≤ 1 / 200 := by
  have h := roundHalfEven_sub_le (q * 100)
  unfold round2
  have h2 : (roundHalfEven (q * 100) : ℚ) / 100 - q
      = ((roundHalfEven (q * 100) : ℚ) - q * 100) / 100 := by ring
  rw [h2, abs_div, abs_of_pos (show (0 : ℚ) < 100 by norm_num)]
  linarith

theorem sum_round2_bound (l : List ℚ) :
    |(l.map round2).sum - l.sum| ≤ (l.length : ℚ) * (1 / 200) := by
  induction l with
  | nil => simp
  | cons q rest ih =>
    simp only [List.map_cons, List.sum_cons, List.length_cons]
    have h1 := round2_sub_le q
    have h2 : round2 q + (rest.map round2).sum - (q + rest.sum)
        = (round2 q - q) + ((rest.map round2).sum - rest.sum) := by ring
    calc |round2 q + (rest.map round2).sum - (q + rest.sum)|
        ≤ |round2 q - q| + |(rest.map round2).sum - rest.sum| := by
          rw [h2]
          exact abs_add _ _
      _ ≤ 1 / 200 + (rest.length : ℚ) * (1 / 200) := add_le_add h1 ih
      _ = ((rest.length : ℚ) + 1) * (1 / 200) := by ring
      _ = ((rest.length + 1 : ℕ) : ℚ) * (1 / 200) := by push_cast; ring

theorem sum_shares (twc : List (Nat × Nat)) (T : ℚ) :
    (twc.map (fun p => ((p.2 : ℚ) / T) * 100)).sum
      = ((twc.map (fun p => (p.2 : ℚ))).sum / T) * 100 := by
  induction twc with
  | nil => simp
  | cons p rest ih =>
    simp only [List.map_cons, List.sum_cons, ih]
    ring

theorem cast_compositionTotal (twc : List (Nat × Nat)) :
    ((compositionTotal twc : ℕ) : ℚ) = (twc.map (fun p => (p.2 : ℚ))).sum := by
  unfold compositionTotal
  rw [Nat.cast_list_sum, List.map_map]
  rfl

/-- C9 (amended). When the agency total is positive (at least one counted
title), every row's Percentage equals `round(share, 2)` with
`share = wordCount / total × 100`; the unrounded shares sum to exactly 100,
and the Percentage column of the composition table sums to 100 within the
accumulated rounding slack `n × 0.005` for `n` rows — but not within
floating-point tolerance (see `composition_percentage_sum_cex`, where it sums
to 99.99). The agency total is exactly the sum of the successfully obtained
title counts. -/
theorem composition_percentage_sum (titles_info : List TitleInfo)
    (twc : List (Nat × Nat)) (hpos : 0 < compositionTotal twc) :
    (∀ row ∈ composition_df titles_info twc,
        row.percentage
          = round2 (((row.wordCount : ℚ) / (compositionTotal twc : ℚ)) * 100)) ∧
    (twc.map (fun p => ((p.2 : ℚ) / (compositionTotal twc : ℚ)) * 100)).sum = 100 ∧
    |sumPercentages (composition_df titles_info twc) - 100|
      ≤ (twc.length : ℚ) * (1 / 200) ∧
    compositionTotal twc = (twc.map Prod.snd).sum := by
  have hT : ((compositionTotal twc : ℕ) : ℚ) ≠ 0 := by
    have := hpos
    positivity
  have hsum100 :
      (twc.map (fun p => ((p.2 : ℚ) / (compositionTotal twc : ℚ)) * 100)).sum = 100 := by
    rw [sum_shares, ← cast_compositionTotal, div_self hT]
    norm_num
  refine ⟨?_, hsum100, ?_, rfl⟩
  · intro row hrow
    have hmem : row ∈ compositionRows titles_info twc :=
      (List.mergeSort_perm (compositionRows titles_info twc)
        (fun a b => decide (b.percentage ≤ a.percentage))).mem_iff.mp hrow
    rw [compositionRows, List.mem_map] at hmem
    obtain ⟨p, hp, hrfl⟩ := hmem
    rw [← hrfl]
    simp [compRowOf, hpos]
  · have hperm : (composition_df titles_info twc).Perm (compositionRows titles_info twc) :=
      List.mergeSort_perm _ _
    have h1 : sumPercentages (composition_df titles_info twc)
        = sumPercentages (compositionRows titles_info twc) :=
      (hperm.map CompRow.percentage).sum_eq
    have h2 : (compositionRows titles_info twc).map CompRow.percentage
        = (twc.map (fun p => ((p.2 : ℚ) / (compositionTotal twc : ℚ)) * 100)).map round2 := by
      rw [compositionRows, List.map_map, List.map_map]
      apply List.map_congr_left
      intro p _
      simp [compRowOf, hpos]
    have h3 := sum_round2_bound
      (twc.map (fun p => ((p.2 : ℚ) / (compositionTotal twc : ℚ)) * 100))
    rw [hsum100, List.length_map] at h3
    rw [h1]
    unfold sumPercentages
    rw [h2]
    exact h3

/-- Concrete instantiation of `composition_percentage_sum` for one title with
the whole count: the single share is 100 and the rounded column sums to 100
within slack. -/
theorem composition_percentage_sum_witness :
    (([((1 : Nat), (4 : Nat))] : List (Nat × Nat)).map
        (fun p => ((p.2 : ℚ) / (compositionTotal [(1, 4)] : ℚ)) * 100)).sum = 100 ∧
    |sumPercentages (composition_df [] [(1, 4)]) - 100| ≤ (1 : ℚ) * (1 / 200) := by
  constructor
  · exact (composition_percentage_sum [] [(1, 4)] (by norm_num [compositionTotal])).2.1
  · have h := (composition_percentage_sum [] [(1, 4)]
      (by norm_num [compositionTotal])).2.2.1
    simpa using h

/-- C9 counterexample: an agency whose composition has three titles of one
word each. Each share is 100/3, stored rounded as 33.33, and the Percentage
column sums to 99.99 — off by 0.01, far outside floating-point tolerance for
values of magnitude 100, so the original claim fails. -/
theorem composition_percentage_sum_cex :
    sumPercentages (composition_df [] [(1, 1), (2, 1), (3, 1)]) = 9999 / 100 ∧
    sumPercentages (composition_df [] [(1, 1), (2, 1), (3, 1)]) ≠ 100 := by
  have hperm : (composition_df [] [(1, 1), (2, 1), (3, 1)]).Perm
      (compositionRows [] [(1, 1), (2, 1), (3, 1)]) := List.mergeSort_perm _ _
  have h1 : sumPercentages (composition_df [] [(1, 1), (2, 1), (3, 1)])
      = sumPercentages (compositionRows [] [(1, 1), (2, 1), (3, 1)]) :=
    (hperm.map CompRow.percentage).sum_eq
  have hfloor : ⌊(10000 : ℚ) / 3⌋ = 3333 := by
    rw [Int.floor_eq_iff]
    norm_num
  have hround : round2 ((100 : ℚ) / 3) = 3333 / 100 := by
    unfold round2 roundHalfEven
    have hq : (100 : ℚ) / 3 * 100 = 10000 / 3 := by norm_num
    rw [hq, hfloor]
    rw [if_pos (by norm_num)]
    norm_num
  have hval : sumPercentages (compositionRows [] [(1, 1), (2, 1), (3, 1)]) = 9999 / 100 := by
    have htot : compositionTotal [(1, 1), (2, 1), (3, 1)] = 3 := rfl
    have harg : (((1 : Nat) : ℚ) / ((3 : Nat) : ℚ)) * 100 = (100 : ℚ) / 3 := by
      norm_num
    simp only [compositionRows, htot, List.map_cons, List.map_nil, sumPercentages, compRowOf]
    norm_num [harg, hround]
  rw [h1, hval]
  constructor
  · rfl
  · norm_num

/-! ### C5: caching is observationally transparent (snapshot pipeline) -/

theorem fetchLoop_result (oracle : Oracle) (n : Nat) (d : String) :
    ∀ (fuel made : Nat) (cacheOn : Bool) (cache : ContentCache),
      (fetchLoop cacheOn oracle n d cache made fuel).result
        = (fetchLoop false oracle n d (fun _ => none) made fuel).result := by
  intro fuel
  induction fuel with
  | zero => intro made cacheOn cache; rfl
  | succ fuel ih =>
    intro made cacheOn cache
    cases ho : oracle n d made with
    | success body => simp only [fetchLoop, ho]
    | status code =>
      simp only [fetchLoop, ho]
      by_cases h5 : code = 504
      · rw [if_pos h5, if_pos h5]
        by_cases hf : fuel = 0
        · rw [if_pos hf, if_pos hf]
        · rw [if_neg hf, if_neg hf]
          exact ih (made + 1) cacheOn cache
      · rw [if_neg h5, if_neg h5]
        by_cases h4 : code = 404
        · rw [if_pos h4, if_pos h4]
        · rw [if_neg h4, if_neg h4]
    | timeout =>
      simp only [fetchLoop, ho]
      by_cases hf : fuel = 0
      · rw [if_pos hf, if_pos hf]
      · rw [if_neg hf, if_neg hf]
        exact ih (made + 1) cacheOn cache
    | error => simp only [fetchLoop, ho]

theorem fetchLoop_requests (oracle : Oracle) (n : Nat) (d : String) :
    ∀ (fuel made : Nat) (cacheOn : Bool) (cache : ContentCache),
      (fetchLoop cacheOn oracle n d cache made fuel).requests
        = (fetchLoop false oracle n d (fun _ => none) made fuel).requests := by
  intro fuel
  induction fuel with
  | zero => intro made cacheOn cache; rfl
  | succ fuel ih =>
    intro made cacheOn cache
    cases ho : oracle n d made with
    | success body => simp only [fetchLoop, ho]
    | status code =>
      simp only [fetchLoop, ho]
      by_cases h5 : code = 504
      · rw [if_pos h5, if_pos h5]
        by_cases hf : fuel = 0
        · rw [if_pos hf, if_pos hf]
        · rw [if_neg hf, if_neg hf]
          exact ih (made + 1) cacheOn cache
      · rw [if_neg h5, if_neg h5]
        by_cases h4 : code = 404
        · rw [if_pos h4, if_pos h4]
        · rw [if_neg h4, if_neg h4]
    | timeout =>
      simp only [fetchLoop, ho]
      by_cases hf : fuel = 0
      · rw [if_pos hf, if_pos hf]
      · rw [if_neg hf, if_neg hf]
        exact ih (made + 1) cacheOn cache
    | error => simp only [fetchLoop, ho]

theorem fetchLoop_cacheOff (oracle : Oracle) (n : Nat) (d : String) :
    ∀ (fuel made : Nat) (cache : ContentCache),
      (fetchLoop false oracle n d cache made fuel).cache = cache := by
  intro fuel
  induction fuel with
  | zero => intro made cache; rfl
  | succ fuel ih =>
    intro made cache
    cases ho : oracle n d made with
    | success body => simp only [fetchLoop, ho]; rfl
    | status code =>
      simp only [fetchLoop, ho]
      by_cases h5 : code = 504
      · rw [if_pos h5]
        by_cases hf : fuel = 0
        · rw [if_pos hf]
        · rw [if_neg hf]
          exact ih (made + 1) cache
      · rw [if_neg h5]
        by_cases h4 : code = 404
        · rw [if_pos h4]
        · rw [if_neg h4]
    | timeout =>
      simp only [fetchLoop, ho]
      by_cases hf : fuel = 0
      · rw [if_pos hf]
      · rw [if_neg hf]
        exact ih (made + 1) cache
    | error => simp only [fetchLoop, ho]

theorem fetchLoop_cacheOn (oracle : Oracle) (n : Nat) (d : String) :
    ∀ (fuel made : Nat) (cache : ContentCache),
      ((fetchLoop true oracle n d cache made fuel).result = none →
        (fetchLoop true oracle n d cache made fuel).cache = cache) ∧
      (∀ body, (fetchLoop true oracle n d cache made fuel).result = some body →
        (fetchLoop true oracle n d cache made fuel).cache
          = fun k => if k = (n, d) then some body else cache k) := by
  intro fuel
  induction fuel with
  | zero =>
    intro made cache
    exact ⟨fun _ => rfl, fun body h => by cases h⟩
  | succ fuel ih =>
    intro made cache
    cases ho : oracle n d made with
    | success b =>
      refine ⟨fun hres => ?_, fun body hres => ?_⟩
      · simp only [fetchLoop, ho] at hres
        exact Option.noConfusion hres
      · simp only [fetchLoop, ho] at hres ⊢
        have hb : b = body := Option.some_inj.mp hres
        subst hb
        rfl
    | status code =>
      by_cases h5 : code = 504
      · by_cases hf : fuel = 0
        · refine ⟨fun hres => ?_, fun body hres => ?_⟩
          · simp only [fetchLoop, ho, if_pos h5, if_pos hf]
          · simp only [fetchLoop, ho, if_pos h5, if_pos hf] at hres
            exact Option.noConfusion hres
        · refine ⟨fun hres => ?_, fun body hres => ?_⟩
          · simp only [fetchLoop, ho, if_pos h5, if_neg hf] at hres ⊢
            exact (ih (made + 1) cache).1 hres
          · simp only [fetchLoop, ho, if_pos h5, if_neg hf] at hres ⊢
            exact (ih (made + 1) cache).2 body hres
      · by_cases h4 : code = 404
        · refine ⟨fun hres => ?_, fun body hres => ?_⟩
          · simp only [fetchLoop, ho, if_neg h5, if_pos h4]
          · simp only [fetchLoop, ho, if_neg h5, if_pos h4] at hres
            exact Option.noConfusion hres
        · refine ⟨fun hres => ?_, fun body hres => ?_⟩
          · simp only [fetchLoop, ho, if_neg h5, if_neg h4]
          · simp only [fetchLoop, ho, if_neg h5, if_neg h4] at hres
            exact Option.noConfusion hres
    | timeout =>
      by_cases hf : fuel = 0
      · refine ⟨fun hres => ?_, fun body hres => ?_⟩
        · simp only [fetchLoop, ho, if_pos hf]
        · simp only [fetchLoop, ho, if_pos hf] at hres
          exact Option.noConfusion hres
      · refine ⟨fun hres => ?_, fun body hres => ?_⟩
        · simp only [fetchLoop, ho, if_neg hf] at hres ⊢
          exact (ih (made + 1) cache).1 hres
        · simp only [fetchLoop, ho, if_neg hf] at hres ⊢
          exact (ih (made + 1) cache).2 body hres
    | error =>
      refine ⟨fun hres => ?_, fun body hres => ?_⟩
      · simp only [fetchLoop, ho]
      · simp only [fetchLoop, ho] at hres
        exact Option.noConfusion hres

/-- A session content cache is consistent with the upstream snapshot when
every cached entry equals what a cache-less fetch of the same `(title, date)`
pair returns. A cache populated only by earlier fetches from the same
immutable snapshot has this property; the empty cache has it vacuously. -/
def Consistent (skip : Bool) (oracle : Oracle) (cache : ContentCache) : Prop :=
  ∀ (n : Nat) (d : String) (v : String),
    cache (n, d) = some v → fetchPure skip oracle n d 1 = some v

theorem gtc_cacheOff (skip : Bool) (oracle : Oracle) (cache : ContentCache)
    (n : Nat) (d : String) :
    (get_title_content skip false oracle cache n d 1 true).result
      = fetchPure skip oracle n d 1 ∧
    (get_title_content skip false oracle cache n d 1 true).cache = cache := by
  by_cases hs : skip = true ∧ n ∈ problematicTitles
  · constructor <;> simp [get_title_content, fetchPure, hs.1, hs.2]
  · constructor
    · have h1 : (get_title_content skip false oracle cache n d 1 true).result
          = (fetchLoop false oracle n d cache 0 (1 + 1)).result := by
        simp [get_title_content, hs]
      have h2 : fetchPure skip oracle n d 1
          = (fetchLoop false oracle n d (fun _ => none) 0 (1 + 1)).result := by
        simp [fetchPure, get_title_content, hs]
      rw [h1, h2]
      exact fetchLoop_result oracle n d (1 + 1) 0 false cache
    · have h1 : (get_title_content skip false oracle cache n d 1 true).cache
          = (fetchLoop false oracle n d cache 0 (1 + 1)).cache := by
        simp [get_title_content, hs]
      rw [h1]
      exact fetchLoop_cacheOff oracle n d (1 + 1) 0 cache

theorem gtc_cacheOn (skip : Bool) (oracle : Oracle) (cache : ContentCache)
    (hC : Consistent skip oracle cache) (n : Nat) (d : String) :
    (get_title_content skip true oracle cache n d 1 false).result
      = fetchPure skip oracle n d 1 ∧
    Consistent skip oracle (get_title_content skip true oracle cache n d 1 false).cache := by
  by_cases hhit : (cache (n, d)).isSome = true
  · obtain ⟨v, hv⟩ := Option.isSome_iff_exists.mp hhit
    have hres : get_title_content skip true oracle cache n d 1 false
        = ⟨cache (n, d), cache, 0⟩ := by
      simp [get_title_content, hhit]
    rw [hres]
    exact ⟨by rw [hv]; exact (hC n d v hv).symm, hC⟩
  · have hsome : (cache (n, d)).isSome = false := by
      revert hhit
      cases (cache (n, d)).isSome
      · intro _; rfl
      · intro h; exact absurd rfl h
    by_cases hs : skip = true ∧ n ∈ problematicTitles
    · have hres : get_title_content skip true oracle cache n d 1 false
          = ⟨none, cache, 0⟩ := by
        simp [get_title_content, hsome, hs.1, hs.2]
      have hpure : fetchPure skip oracle n d 1 = none := by
        simp [fetchPure, get_title_content, hs.1, hs.2]
      rw [hres, hpure]
      exact ⟨rfl, hC⟩
    · have hres : get_title_content skip true oracle cache n d 1 false
          = fetchLoop true oracle n d cache 0 (1 + 1) := by
        simp [get_title_content, hsome, hs]
      have hpure : fetchPure skip oracle n d 1
          = (fetchLoop false oracle n d (fun _ => none) 0 (1 + 1)).result := by
        simp [fetchPure, get_title_content, hs]
      constructor
      · rw [hres, hpure]
        exact fetchLoop_result oracle n d (1 + 1) 0 true cache
      · rw [hres]
        cases hr : (fetchLoop true oracle n d cache 0 (1 + 1)).result with
        | none =>
          rw [(fetchLoop_cacheOn oracle n d (1 + 1) 0 cache).1 hr]
          exact hC
        | some body =>
          rw [(fetchLoop_cacheOn oracle n d (1 + 1) 0 cache).2 body hr]
          intro n2 d2 v hv2
          have hv3 : (if ((n2, d2) : Nat × String) = (n, d) then some body
              else cache (n2, d2)) = some v := hv2
          by_cases hk : ((n2, d2) : Nat × String) = (n, d)
          · rw [if_pos hk] at hv3
            have hvb : body = v := Option.some_inj.mp hv3
            obtain ⟨hn2, hd2⟩ := Prod.mk.injEq n2 d2 n d ▸ hk
            rw [hn2, hd2, hpure, ← fetchLoop_result oracle n d (1 + 1) 0 true cache,
              hr, hvb]
          · rw [if_neg hk] at hv3
            exact hC n2 d2 v hv3

theorem snapshotFold_twc (skip : Bool) (oracle : Oracle) (parse : String → Option String)
    (target : String) (titles : List TitleInfo) :
    ∀ (twc0 : List (Nat × Nat)) (log1 log2 : List (Nat × String))
      (c1 c2 : ContentCache), Consistent skip oracle c1 →
      ((titles.foldl (loopStep skip true oracle parse target false) ⟨twc0, c1, log1⟩).twc
        = (titles.foldl (loopStep skip false oracle parse target true) ⟨twc0, c2, log2⟩).twc)
      ∧ Consistent skip oracle
          (titles.foldl (loopStep skip true oracle parse target false) ⟨twc0, c1, log1⟩).cache := by
  induction titles with
  | nil =>
    intro twc0 log1 log2 c1 c2 hC
    exact ⟨rfl, hC⟩
  | cons ti rest ih =>
    intro twc0 log1 log2 c1 c2 hC
    rw [List.foldl_cons, List.foldl_cons]
    by_cases hresb : ti.reserved = true
    · have e1 : loopStep skip true oracle parse target false ⟨twc0, c1, log1⟩ ti
          = ⟨twc0, c1, log1⟩ := by
        simp [loopStep, hresb]
      have e2 : loopStep skip false oracle parse target true ⟨twc0, c2, log2⟩ ti
          = ⟨twc0, c2, log2⟩ := by
        simp [loopStep, hresb]
      rw [e1, e2]
      exact ih twc0 log1 log2 c1 c2 hC
    · have hres2 : ti.reserved = false := by
        revert hresb
        cases ti.reserved
        · intro _; rfl
        · intro h; exact absurd rfl h
      have h1 := gtc_cacheOn skip oracle c1 hC ti.number (useDate ti target)
      have h2 := gtc_cacheOff skip oracle c2 ti.number (useDate ti target)
      cases hp : fetchPure skip oracle ti.number (useDate ti target) 1 with
      | none =>
        have hr1 : (get_title_content skip true oracle c1 ti.number
            (useDate ti target) 1 false).result = none := by rw [h1.1, hp]
        have hr2 : (get_title_content skip false oracle c2 ti.number
            (useDate ti target) 1 true).result = none := by rw [h2.1, hp]
        have e1 : loopStep skip true oracle parse target false ⟨twc0, c1, log1⟩ ti
            = ⟨twc0,
               (get_title_content skip true oracle c1 ti.number
                 (useDate ti target) 1 false).cache,
               log1 ++ List.replicate (get_title_content skip true oracle c1 ti.number
                 (useDate ti target) 1 false).requests (ti.number, useDate ti target)⟩ := by
          simp [loopStep, hres2, hr1]
        have e2 : loopStep skip false oracle parse target true ⟨twc0, c2, log2⟩ ti
            = ⟨twc0,
               (get_title_content skip false oracle c2 ti.number
                 (useDate ti target) 1 true).cache,
               log2 ++ List.replicate (get_title_content skip false oracle c2 ti.number
                 (useDate ti target) 1 true).requests (ti.number, useDate ti target)⟩ := by
          simp [loopStep, hres2, hr2]
        rw [e1, e2]
        exact ih twc0 _ _ _ _ h1.2
      | some body =>
        have hr1 : (get_title_content skip true oracle c1 ti.number
            (useDate ti target) 1 false).result = some body := by rw [h1.1, hp]
        have hr2 : (get_title_content skip false oracle c2 ti.number
            (useDate ti target) 1 true).result = some body := by rw [h2.1, hp]
        by_cases hb : body = ""
        · have e1 : loopStep skip true oracle parse target false ⟨twc0, c1, log1⟩ ti
              = ⟨twc0,
                 (get_title_content skip true oracle c1 ti.number
                   (useDate ti target) 1 false).cache,
                 log1 ++ List.replicate (get_title_content skip true oracle c1 ti.number
                   (useDate ti target) 1 false).requests (ti.number, useDate ti target)⟩ := by
            simp [loopStep, hres2, hr1, hb]
          have e2 : loopStep skip false oracle parse target true ⟨twc0, c2, log2⟩ ti
              = ⟨twc0,
                 (get_title_content skip false oracle c2 ti.number
                   (useDate ti target) 1 true).cache,
                 log2 ++ List.replicate (get_title_content skip false oracle c2 ti.number
                   (useDate ti target) 1 true).requests (ti.number, useDate ti target)⟩ := by
            simp [loopStep, hres2, hr2, hb]
          rw [e1, e2]
          exact ih twc0 _ _ _ _ h1.2
        · have e1 : loopStep skip true oracle parse target false ⟨twc0, c1, log1⟩ ti
              = ⟨dictInsert twc0 ti.number (count_words_in_xml parse (some body)),
                 (get_title_content skip true oracle c1 ti.number
                   (useDate ti target) 1 false).cache,
                 log1 ++ List.replicate (get_title_content skip true oracle c1 ti.number
                   (useDate ti target) 1 false).requests (ti.number, useDate ti target)⟩ := by
            simp [loopStep, hres2, hr1, hb]
          have e2 : loopStep skip false oracle parse target true ⟨twc0, c2, log2⟩ ti
              = ⟨dictInsert twc0 ti.number (count_words_in_xml parse (some body)),
                 (get_title_content skip false oracle c2 ti.number
                   (useDate ti target) 1 true).cache,
                 log2 ++ List.replicate (get_title_content skip false oracle c2 ti.number
                   (useDate ti target) 1 true).requests (ti.number, useDate ti target)⟩ := by
            simp [loopStep, hres2, hr2, hb]
          rw [e1, e2]
          exact ih (dictInsert twc0 ti.number (count_words_in_xml parse (some body)))
            _ _ _ _ h1.2

/-- The agency payload a cache-less `get_agencies` yields from the fixed
upstream snapshot (`[]` on failure, app.py lines 49-57). -/
def pureAgencies : NetResult (List Agency) → List Agency
  | .ok payload => payload
  | .err => []

/-- The titles payload a cache-less `get_titles` yields. -/
def pureTitleList : NetResult (List TitleInfo) → List TitleInfo
  | .ok payload => payload
  | .err => []

theorem get_agencies_on (netA : NetResult (List Agency)) (s : Session)
    (hA : ∀ a, s.agenciesCache = some a → netA = NetResult.ok a) :
    (get_agencies true netA s false).1 = pureAgencies netA := by
  cases ha : s.agenciesCache with
  | some a =>
    have := hA a ha
    subst this
    simp [get_agencies, ha, pureAgencies]
  | none =>
    cases netA with
    | ok payload => simp [get_agencies, ha, pureAgencies]
    | err => simp [get_agencies, ha, pureAgencies]

theorem get_agencies_off (netA : NetResult (List Agency)) (s : Session) :
    (get_agencies false netA s true).1 = pureAgencies netA ∧
    (get_agencies false netA s true).2 = s := by
  cases netA <;> simp [get_agencies, pureAgencies]

theorem get_agencies_state (cacheOn fr : Bool) (netA : NetResult (List Agency))
    (s : Session) :
    (get_agencies cacheOn netA s fr).2.titlesCache = s.titlesCache ∧
    (get_agencies cacheOn netA s fr).2.contentCache = s.contentCache ∧
    (get_agencies cacheOn netA s fr).2.analysisBareKeys = s.analysisBareKeys := by
  unfold get_agencies
  cases netA <;> cases cacheOn <;> split <;> exact ⟨rfl, rfl, rfl⟩

theorem get_agencies_preserve (cacheOn fr : Bool) (netA : NetResult (List Agency))
    (s : Session) (hA : ∀ a, s.agenciesCache = some a → netA = NetResult.ok a) :
    ∀ a, (get_agencies cacheOn netA s fr).2.agenciesCache = some a
      → netA = NetResult.ok a := by
  unfold get_agencies
  cases netA with
  | ok payload =>
    cases cacheOn
    · split
      · exact hA
      · exact hA
    · split
      · exact hA
      · intro a ha
        have h2 : some payload = some a := ha
        rw [Option.some_inj.mp h2]
  | err =>
    split
    · exact hA
    · exact hA

theorem get_titles_on (netT : NetResult (List TitleInfo)) (s : Session)
    (hT : ∀ t, s.titlesCache = some t → netT = NetResult.ok t) :
    (get_titles true netT s false).1 = pureTitleList netT := by
  cases ht : s.titlesCache with
  | some t =>
    have := hT t ht
    subst this
    simp [get_titles, ht, pureTitleList]
  | none =>
    cases netT with
    | ok payload => simp [get_titles, ht, pureTitleList]
    | err => simp [get_titles, ht, pureTitleList]

theorem get_titles_off (netT : NetResult (List TitleInfo)) (s : Session) :
    (get_titles false netT s true).1 = pureTitleList netT ∧
    (get_titles false netT s true).2 = s := by
  cases netT <;> simp [get_titles, pureTitleList]

theorem get_titles_state (cacheOn fr : Bool) (netT : NetResult (List TitleInfo))
    (s : Session) :
    (get_titles cacheOn netT s fr).2.agenciesCache = s.agenciesCache ∧
    (get_titles cacheOn netT s fr).2.contentCache = s.contentCache ∧
    (get_titles cacheOn netT s fr).2.analysisBareKeys = s.analysisBareKeys := by
  unfold get_titles
  cases netT <;> cases cacheOn <;> split <;> exact ⟨rfl, rfl, rfl⟩

theorem get_titles_preserve (cacheOn fr : Bool) (netT : NetResult (List TitleInfo))
    (s : Session) (hT : ∀ t, s.titlesCache = some t → netT = NetResult.ok t) :
    ∀ t, (get_titles cacheOn netT s fr).2.titlesCache = some t
      → netT = NetResult.ok t := by
  unfold get_titles
  cases netT with
  | ok payload =>
    cases cacheOn
    · split
      · exact hT
      · exact hT
    · split
      · exact hT
      · intro t ht
        have h2 : some payload = some t := ht
        rw [Option.some_inj.mp h2]
  | err =>
    split
    · exact hT
    · exact hT

theorem agencyAnalysis_on_eq_off (netA : NetResult (List Agency))
    (netT : NetResult (List TitleInfo)) (oracle : Oracle)
    (parse : String → Option String) (p : SnapParams) (s sAny : Session)
    (hA : ∀ a, s.agenciesCache = some a → netA = NetResult.ok a)
    (hT : ∀ t, s.titlesCache = some t → netT = NetResult.ok t)
    (hC : Consistent p.skip oracle s.contentCache)
    (hB : s.analysisBareKeys (agency_analysis_key p) = false) :
    (agencyAnalysis true netA netT oracle parse p s).1
      = (agencyAnalysis false netA netT oracle parse p sAny).1 := by
  have hag1 : (get_agencies true netA s false).1 = pureAgencies netA :=
    get_agencies_on netA s hA
  have hagst := get_agencies_state true false netA s
  have hti1 : (get_titles true netT (get_agencies true netA s false).2 false).1
      = pureTitleList netT := by
    apply get_titles_on
    intro t ht
    apply hT t
    rw [← hagst.1]
    exact ht
  have htist := get_titles_state true false netT (get_agencies true netA s false).2
  have hcc : (get_titles true netT (get_agencies true netA s false).2 false).2.contentCache
      = s.contentCache := by
    rw [htist.2.1, hagst.2.1]
  have hoffa := get_agencies_off netA sAny
  have hofft := get_titles_off netT (get_agencies false netA sAny true).2
  have htwc := (snapshotFold_twc p.skip oracle parse p.target_date
      ((pureTitleList netT).take p.max_titles) [] [] []
      s.contentCache
      ((get_titles false netT (get_agencies false netA sAny true).2 true).2.contentCache)
      hC).1
  simp only [agencyAnalysis, snapshotTitles, Bool.not_true, Bool.not_false, hB,
    Bool.and_false, Bool.false_and, Bool.false_eq_true, if_false]
  rw [hag1, hti1, hcc, hoffa.1, hofft.1, htwc]

theorem agencyAnalysis_state (netA : NetResult (List Agency))
    (netT : NetResult (List TitleInfo)) (oracle : Oracle)
    (parse : String → Option String) (p : SnapParams) (s : Session)
    (hB : s.analysisBareKeys (agency_analysis_key p) = false) :
    (agencyAnalysis true netA netT oracle parse p s).2.agenciesCache
      = (get_agencies true netA s false).2.agenciesCache ∧
    (agencyAnalysis true netA netT oracle parse p s).2.titlesCache
      = (get_titles true netT (get_agencies true netA s false).2 false).2.titlesCache ∧
    (agencyAnalysis true netA netT oracle parse p s).2.analysisBareKeys
      = s.analysisBareKeys ∧
    (agencyAnalysis true netA netT oracle parse p s).2.contentCache
      = (snapshotTitles p.skip true oracle parse p.target_date
          ((get_titles true netT (get_agencies true netA s false).2 false).1.take
            p.max_titles)
          ((get_titles true netT
            (get_agencies true netA s false).2 false).2.contentCache)).cache := by
  have hagst := get_agencies_state true false netA s
  have htist := get_titles_state true false netT (get_agencies true netA s false).2
  simp only [agencyAnalysis, Bool.not_true, hB, Bool.and_false, Bool.false_eq_true,
    if_false, if_true]
  refine ⟨?_, trivial, ?_, trivial⟩
  · exact htist.1
  · rw [htist.2.2, hagst.2.2]

/-- C5. For a fixed immutable upstream snapshot (deterministic network
oracles): starting from a session whose caches are consistent with that
snapshot and in which no snapshot bare key is present (the code never stores
one), the snapshot computation with caching enabled produces the same output
tables as the computation with caching disabled from any session state, and
running it twice in a row with caching enabled produces identical tables both
times — caching changes no observable result. -/
theorem snapshot_cache_transparent (netA : NetResult (List Agency))
    (netT : NetResult (List TitleInfo)) (oracle : Oracle)
    (parse : String → Option String) (p : SnapParams) (s0 sAny : Session)
    (hA : ∀ a, s0.agenciesCache = some a → netA = NetResult.ok a)
    (hT : ∀ t, s0.titlesCache = some t → netT = NetResult.ok t)
    (hC : Consistent p.skip oracle s0.contentCache)
    (hB : ∀ k, s0.analysisBareKeys k = false) :
    (agencyAnalysis true netA netT oracle parse p s0).1
      = (agencyAnalysis false netA netT oracle parse p sAny).1 ∧
    (agencyAnalysis true netA netT oracle parse p
        (agencyAnalysis true netA netT oracle parse p s0).2).1
      = (agencyAnalysis true netA netT oracle parse p s0).1 := by
  have hBs : s0.analysisBareKeys (agency_analysis_key p) = false := hB _
  have h1 := agencyAnalysis_on_eq_off netA netT oracle parse p s0 sAny hA hT hC hBs
  have hst := agencyAnalysis_state netA netT oracle parse p s0 hBs
  have hagst := get_agencies_state true false netA s0
  have htist := get_titles_state true false netT (get_agencies true netA s0 false).2
  have hcc : (get_titles true netT (get_agencies true netA s0 false).2 false).2.contentCache
      = s0.contentCache := by
    rw [htist.2.1, hagst.2.1]
  have hA1 : ∀ a, (agencyAnalysis true netA netT oracle parse p s0).2.agenciesCache
      = some a → netA = NetResult.ok a := by
    intro a ha
    apply get_agencies_preserve true false netA s0 hA a
    rw [← hst.1]
    exact ha
  have hT1 : ∀ t, (agencyAnalysis true netA netT oracle parse p s0).2.titlesCache
      = some t → netT = NetResult.ok t := by
    intro t ht
    apply get_titles_preserve true false netT (get_agencies true netA s0 false).2
      (fun t2 ht2 => hT t2 (by rw [← hagst.1]; exact ht2)) t
    rw [← hst.2.1]
    exact ht
  have hC1 : Consistent p.skip oracle
      (agencyAnalysis true netA netT oracle parse p s0).2.contentCache := by
    rw [hst.2.2.2]
    have hcons := (snapshotFold_twc p.skip oracle parse p.target_date
        ((get_titles true netT (get_agencies true netA s0 false).2 false).1.take
          p.max_titles)
        [] [] [] s0.contentCache s0.contentCache hC).2
    simp only [snapshotTitles, Bool.not_true]
    rw [hcc]
    exact hcons
  have hB1 : ∀ k, (agencyAnalysis true netA netT oracle parse p s0).2.analysisBareKeys k
      = false := by
    intro k
    rw [hst.2.2.1]
    exact hB k
  have h2 := agencyAnalysis_on_eq_off netA netT oracle parse p
    (agencyAnalysis true netA netT oracle parse p s0).2 sAny hA1 hT1 hC1 (hB1 _)
  exact ⟨h1, h2.trans h1.symm⟩

/-- Concrete instantiation of `snapshot_cache_transparent` from an empty
session (vacuously consistent caches). -/
theorem snapshot_cache_transparent_witness :
    (agencyAnalysis true (NetResult.ok []) (NetResult.ok [])
        (fun _ _ _ => FetchOutcome.error) (fun _ => none)
        ⟨5, "2025-01-01", true, 240, "0.2"⟩
        ⟨none, none, fun _ => none, fun _ => false, fun _ => none⟩).1
      = (agencyAnalysis false (NetResult.ok []) (NetResult.ok [])
          (fun _ _ _ => FetchOutcome.error) (fun _ => none)
          ⟨5, "2025-01-01", true, 240, "0.2"⟩
          ⟨none, none, fun _ => none, fun _ => false, fun _ => none⟩).1 ∧
    (agencyAnalysis true (NetResult.ok []) (NetResult.ok [])
        (fun _ _ _ => FetchOutcome.error) (fun _ => none)
        ⟨5, "2025-01-01", true, 240, "0.2"⟩
        (agencyAnalysis true (NetResult.ok []) (NetResult.ok [])
          (fun _ _ _ => FetchOutcome.error) (fun _ => none)
          ⟨5, "2025-01-01", true, 240, "0.2"⟩
          ⟨none, none, fun _ => none, fun _ => false, fun _ => none⟩).2).1
      = (agencyAnalysis true (NetResult.ok []) (NetResult.ok [])
          (fun _ _ _ => FetchOutcome.error) (fun _ => none)
          ⟨5, "2025-01-01", true, 240, "0.2"⟩
          ⟨none, none, fun _ => none, fun _ => false, fun _ => none⟩).1 := by
  exact snapshot_cache_transparent (NetResult.ok []) (NetResult.ok [])
    (fun _ _ _ => FetchOutcome.error) (fun _ => none)
    ⟨5, "2025-01-01", true, 240, "0.2"⟩
    ⟨none, none, fun _ => none, fun _ => false, fun _ => none⟩
    ⟨none, none, fun _ => none, fun _ => false, fun _ => none⟩
    (fun _ ha => Option.noConfusion ha)
    (fun _ ht => Option.noConfusion ht)
    (fun _ _ _ hv => Option.noConfusion hv)
    (fun _ => rfl)
